import Mathlib

/-!
Verification of the pyEHR record-coordination layer and its JSON utilities.

The development shallowly embeds the two source modules:
* pyehr/utils/__init__.py      : decode_list, decode_dict, cleanup_json
* pyehr/ehr/services/dbmanager/dbservices/__init__.py : the DBServices class

Python dictionaries are modelled as association lists, Python None as an
explicit null constructor, raised exceptions as Except errors, and the
backend store as an explicit state record threaded through every operation.
-/

set_option autoImplicit false

namespace PyEHR

/-! ## Values manipulated by pyehr.utils

A Python-2 value as seen by decode_list / decode_dict: unicode strings and
byte strings are distinct types, lists are MutableSequence, dicts are
MutableMapping, everything else (numbers, booleans, None) passes through
untouched.  Dictionary keys are hashable scalars.
-/

inductive PyKey where
  | uk (s : String)
  | bk (s : String)
  | ik (n : Int)
deriving DecidableEq, Repr

inductive PyVal where
  | none
  | uni (s : String)
  | bytes (s : String)
  | num (n : Int)
  | boolean (b : Bool)
  | list (xs : List PyVal)
  | dict (kvs : List (PyKey × PyVal))

/-- Python-2 `key.encode(utf-8)` applied to a dictionary key when it is
unicode; other keys pass through unchanged (source: decode_dict, the
`isinstance(key, unicode)` branch). -/
def decode_key : PyKey → PyKey
  | .uk s => .bk s
  | k => k

/-- Assignment `decoded[key] = val` on a dictionary modelled as an
association list: replace the value of an existing key, else append. -/
def dict_assign (l : List (PyKey × PyVal)) (k : PyKey) (v : PyVal) :
    List (PyKey × PyVal) :=
  match l with
  | [] => [(k, v)]
  | (k', v') :: rest =>
      if k' = k then (k', v) :: rest else (k', v') :: dict_assign rest k v

/-- Replay of the assignments `decoded[key] = val` performed by decode_dict,
in iteration order, starting from the empty dictionary. -/
def dict_assign_all (acc : List (PyKey × PyVal)) :
    List (PyKey × PyVal) → List (PyKey × PyVal)
  | [] => acc
  | (k, v) :: rest => dict_assign_all (dict_assign acc k v) rest

mutual

/-- Per-element transformation shared by decode_list and decode_dict values:
unicode is encoded to utf-8 bytes, nested MutableSequence values go through
decode_list, nested MutableMapping values go through decode_dict, everything
else is returned unchanged. -/
def decode_item : PyVal → PyVal
  | .uni s => .bytes s
  | .list xs => .list (decode_list xs)
  | .dict kvs => .dict (dict_assign_all [] (decode_pairs kvs))
  | v => v

/-- Transforms unicode elements of a list into strings
(source: pyehr.utils.decode_list). -/
def decode_list : List PyVal → List PyVal
  | [] => []
  | x :: xs => decode_item x :: decode_list xs

/-- Decoded (key, value) pairs of a dictionary, in iteration order
(source: the body of the loop of pyehr.utils.decode_dict). -/
def decode_pairs : List (PyKey × PyVal) → List (PyKey × PyVal)
  | [] => []
  | (k, v) :: kvs => (decode_key k, decode_item v) :: decode_pairs kvs

end

/-- Transforms unicode in a dictionary (both keys and values) into strings
(source: pyehr.utils.decode_dict).  The loop decodes each pair and assigns
it into the fresh result dictionary; decoding a pair has no effect on the
result dictionary, so the replay of the assignments over the decoded pairs
is the same function as the interleaved source loop. -/
def decode_dict (data : List (PyKey × PyVal)) : List (PyKey × PyVal) :=
  dict_assign_all [] (decode_pairs data)

/-! ## JSON values for cleanup_json

cleanup_json receives a decoded JSON dictionary; Python None is the null
constructor.  The source calls data.iteritems() unconditionally, so calling
it on anything that is not a dictionary raises AttributeError, modelled as
an Except error.
-/

inductive JValue where
  | null
  | boolean (b : Bool)
  | num (n : Int)
  | str (s : String)
  | arr (items : List JValue)
  | obj (fields : List (String × JValue))

/-- The Python test `x is None`. -/
def JValue.isNull : JValue → Bool
  | .null => true
  | _ => false

mutual

/-- Remove all keys with a None value from the given JSON dictionary
(source: pyehr.utils.cleanup_json).  On a non-dictionary argument the
source raises AttributeError at data.iteritems(), hence the error case. -/
def cleanup_json : JValue → Except Unit JValue
  | .obj fields =>
      match cleanup_fields fields with
      | .error e => .error e
      | .ok cleaned =>
          if cleaned.isEmpty then .ok .null else .ok (.obj cleaned)
  | _ => .error ()

/-- One (k, v) step of the cleanup loop: the two sequential isinstance
branches of the source are disjoint in effect because cleanup_json returns
a dictionary or None, never a sequence, so the sequence branch fires exactly
when the original value is a sequence. -/
def cleanup_value : JValue → Except Unit JValue
  | .obj fields => cleanup_json (.obj fields)
  | .arr items =>
      match cleanup_items items with
      | .error e => .error e
      | .ok cleaned =>
          if cleaned.isEmpty then .ok .null else .ok (.arr cleaned)
  | v => .ok v

/-- The inner list cleanup of cleanup_json: None items are skipped, every
other item is passed to cleanup_json (raising on non-dictionaries), and
results that cleaned to None are dropped. -/
def cleanup_items : List JValue → Except Unit (List JValue)
  | [] => .ok []
  | item :: rest =>
      if item.isNull then cleanup_items rest
      else
        match cleanup_json item with
        | .error e => .error e
        | .ok i =>
            match cleanup_items rest with
            | .error e => .error e
            | .ok rest' => if i.isNull then .ok rest' else .ok (i :: rest')

/-- The field loop of cleanup_json: each value is cleaned and the key is
kept only when the cleaned value is not None. -/
def cleanup_fields : List (String × JValue) →
    Except Unit (List (String × JValue))
  | [] => .ok []
  | (k, v) :: rest =>
      match cleanup_value v with
      | .error e => .error e
      | .ok v2 =>
          match cleanup_fields rest with
          | .error e => .error e
          | .ok rest' =>
              if v2.isNull then .ok rest' else .ok ((k, v2) :: rest')

end

mutual

/-- A value is junk-free when no nesting depth holds a None value, an empty
dictionary or an empty list. -/
def no_junk : JValue → Bool
  | .null => false
  | .arr items => !items.isEmpty && no_junk_items items
  | .obj fields => !fields.isEmpty && no_junk_fields fields
  | _ => true

def no_junk_items : List JValue → Bool
  | [] => true
  | x :: xs => no_junk x && no_junk_items xs

def no_junk_fields : List (String × JValue) → Bool
  | [] => true
  | (_, v) :: kvs => no_junk v && no_junk_fields kvs

end

/-! ## The record-coordination layer (DBServices)

The coordinator manages patient records and the clinical (EHR) records
linked to them.  In-memory wrapper objects and the stored documents are
modelled separately: a stored clinical document is a ClinicalRecord value
(encode_record / decode_record of the driver are the identity in this flat
model), while a stored patient document carries the linked clinical record
ids instead of loaded instances.  The backend is a DBState value threaded
explicitly; mutating operations return their result next to the post-state,
with a DBError result standing for a raised Python exception.
-/

structure ClinicalRecord where
  record_id : Option Nat
  patient_id : Option Nat
  active : Bool
  last_update : Nat
  version : Nat
  ehr_data : Nat
deriving DecidableEq, Repr

structure PatientRecord where
  record_id : Option Nat
  active : Bool
  last_update : Nat
  ehr_records : List ClinicalRecord
deriving DecidableEq, Repr

structure PatientDoc where
  record_id : Nat
  active : Bool
  last_update : Nat
  ehr_refs : List (Option Nat)
deriving DecidableEq, Repr

structure DBState where
  patients : List PatientDoc
  ehrs : List ClinicalRecord
  revisions : List ClinicalRecord
  clock : Nat
  next_id : Nat
deriving DecidableEq, Repr

inductive DBError where
  | cascadeDeleteError (patient_id : Option Nat) (linked : Nat)
  | notLinkedError
  | duplicatedKeyError
  | noneTypeError
deriving DecidableEq, Repr

/-- Result of a mutating coordinator operation: the returned value or the
raised error, together with the backend state as far as execution got. -/
abbrev DBResult (α : Type) := (Except DBError α) × DBState

/-- Modelled from the spec: Driver Port getRecordById on the patient
repository; no stored document carries a None id, so a None argument finds
nothing. -/
def patient_lookup (s : DBState) (i : Option Nat) : Option PatientDoc :=
  match i with
  | none => none
  | some n => s.patients.find? (fun d => d.record_id == n)

/-- Modelled from the spec: Driver Port getRecordById on the clinical
repository. -/
def ehr_lookup (s : DBState) (i : Option Nat) : Option ClinicalRecord :=
  match i with
  | none => none
  | some n => s.ehrs.find? (fun d => d.record_id == some n)

def ehr_exists (s : DBState) (n : Nat) : Bool :=
  s.ehrs.any (fun d => d.record_id == some n)

def patient_exists (s : DBState) (n : Nat) : Bool :=
  s.patients.any (fun d => d.record_id == n)

/-- Modelled from the spec: Driver Port encodeRecord on a patient record —
the linked clinical records are stored as their ids. -/
def encode_patient (p : PatientRecord) (n : Nat) : PatientDoc :=
  { record_id := n, active := p.active, last_update := p.last_update,
    ehr_refs := p.ehr_records.map (fun r => r.record_id) }

/-- Modelled from the spec: Driver Port addRecord on the clinical
repository — a fresh id is assigned when the encoded record carries none, a
preset id colliding with a stored identity raises a duplicate-key error,
otherwise the document is inserted and its id returned. -/
def driver_add_ehr (s : DBState) (r : ClinicalRecord) :
    Except DBError (Nat × DBState) :=
  match r.record_id with
  | some n =>
      if ehr_exists s n then .error .duplicatedKeyError
      else .ok (n, { s with ehrs := s.ehrs ++ [r] })
  | none =>
      let n := s.next_id
      .ok (n, { s with ehrs := s.ehrs ++ [{ r with record_id := some n }],
                       next_id := n + 1 })

/-- Modelled from the spec: Driver Port addRecord on the patient
repository. -/
def driver_add_patient (s : DBState) (p : PatientRecord) :
    Except DBError (Nat × DBState) :=
  match p.record_id with
  | some n =>
      if patient_exists s n then .error .duplicatedKeyError
      else .ok (n, { s with patients := s.patients ++ [encode_patient p n] })
  | none =>
      let n := s.next_id
      .ok (n, { s with patients := s.patients ++ [encode_patient p n],
                       next_id := n + 1 })

/-- Modelled from the spec: Driver Port updateField of the active flag on a
stored patient document, bumping the timestamp field and returning the new
timestamp as evidence of the revision bump. -/
def driver_patient_update_active (s : DBState) (i : Option Nat) (value : Bool) :
    Nat × DBState :=
  let ts := s.clock + 1
  let s1 := { s with clock := ts }
  match i with
  | none => (ts, s1)
  | some n =>
      (ts, { s1 with patients := s1.patients.map (fun d =>
               if d.record_id == n then { d with active := value, last_update := ts }
               else d) })

/-- Modelled from the spec: Driver Port addToList on the ehr_records field
of a stored patient document (append preserves insertion order). -/
def driver_patient_add_to_list (s : DBState) (i : Option Nat) (e : Option Nat) :
    Nat × DBState :=
  let ts := s.clock + 1
  let s1 := { s with clock := ts }
  match i with
  | none => (ts, s1)
  | some n =>
      (ts, { s1 with patients := s1.patients.map (fun d =>
               if d.record_id == n then
                 { d with ehr_refs := d.ehr_refs ++ [e], last_update := ts }
               else d) })

/-- Modelled from the spec: Driver Port extendList on the ehr_records field
of a stored patient document. -/
def driver_patient_extend_list (s : DBState) (i : Option Nat)
    (es : List (Option Nat)) : Nat × DBState :=
  let ts := s.clock + 1
  let s1 := { s with clock := ts }
  match i with
  | none => (ts, s1)
  | some n =>
      (ts, { s1 with patients := s1.patients.map (fun d =>
               if d.record_id == n then
                 { d with ehr_refs := d.ehr_refs ++ es, last_update := ts }
               else d) })

/-- Modelled from the spec: Driver Port removeFromList on the ehr_records
field of a stored patient document — deletes the first matching element;
absence of a match surfaces as the not-linked consistency error. -/
def driver_patient_remove_from_list (s : DBState) (i : Option Nat)
    (e : Option Nat) : DBResult Nat :=
  match patient_lookup s i, i with
  | some d, some n =>
      if e ∈ d.ehr_refs then
        let ts := s.clock + 1
        (.ok ts, { s with clock := ts,
                          patients := s.patients.map (fun d' =>
                            if d'.record_id == n then
                              { d' with ehr_refs := d'.ehr_refs.erase e,
                                        last_update := ts }
                            else d') })
      else (.error .notLinkedError, s)
  | _, _ => (.error .notLinkedError, s)

/-- Modelled from the spec: Version Manager updateField of the active flag
on a clinical record — a revision-stamped write through the Driver Port
(archiving the previous stored document and bumping the stored version),
reflected onto the in-memory record via its active and last_update
fields. -/
def vm_update_active (s : DBState) (r : ClinicalRecord) (value : Bool) :
    ClinicalRecord × DBState :=
  let ts := s.clock + 1
  let s1 := { s with clock := ts }
  let s2 :=
    match ehr_lookup s r.record_id with
    | none => s1
    | some d =>
        { s1 with
          ehrs := s1.ehrs.map (fun d' =>
            if d'.record_id == r.record_id then
              { d' with active := value, last_update := ts,
                        version := d'.version + 1 }
            else d'),
          revisions := s1.revisions ++ [d] }
  ({ r with active := value, last_update := ts }, s2)

/-- Modelled from the spec: Version Manager removeRevisions — purges every
archived revision of the given clinical record id (idempotent). -/
def vm_remove_revisions (s : DBState) (i : Option Nat) : DBState :=
  { s with revisions := s.revisions.filter (fun d => d.record_id != i) }

/-- Modelled from the spec: ClinicalRecord.bind_to_patient of the wrappers
module — binds the detail back-reference to the subject id. -/
def bind_to_patient (r : ClinicalRecord) (p : PatientRecord) : ClinicalRecord :=
  { r with patient_id := p.record_id }

/-- Modelled from the spec: ClinicalRecord.reset of the wrappers module —
the full identity reset clears the record id, the subject back-reference
and the version metadata. -/
def ClinicalRecord.reset (r : ClinicalRecord) : ClinicalRecord :=
  { r with record_id := none, patient_id := none, version := 1 }

/-- Modelled from the spec: ClinicalRecord.reset_version of the wrappers
module — clears only the revision/version metadata, preserving identity. -/
def ClinicalRecord.reset_version (r : ClinicalRecord) : ClinicalRecord :=
  { r with version := 1 }

/-! ### DBServices operations (translated from the source) -/

/-- DBServices.save_patient: encode and insert, then set the assigned id on
the in-memory record. -/
def save_patient (s : DBState) (p : PatientRecord) : DBResult PatientRecord :=
  match driver_add_patient s p with
  | .error e => (.error e, s)
  | .ok (n, s1) => (.ok { p with record_id := some n }, s1)

/-- DBServices.save_ehr_record: bind the record to the patient, persist it,
then (DBServices._add_ehr_record) append its id to the stored ehr_records
list and the instance to the in-memory list. -/
def save_ehr_record (s : DBState) (r : ClinicalRecord) (p : PatientRecord) :
    DBResult (ClinicalRecord × PatientRecord) :=
  let r1 := bind_to_patient r p
  match driver_add_ehr s r1 with
  | .error e => (.error e, s)
  | .ok (_, s1) =>
      let (ts, s2) := driver_patient_add_to_list s1 p.record_id r1.record_id
      let p1 := { p with last_update := ts, ehr_records := p.ehr_records ++ [r1] }
      (.ok (r1, p1), s2)

/-- Modelled from the spec: Driver Port addRecords — sequential batch insert
that, when skipDuplicates is set, continues past duplicate-key conflicts
collecting the conflicting encoded records, and otherwise fails the batch
on the first duplicate. -/
def driver_add_ehrs (s : DBState) (rs : List ClinicalRecord) (skip : Bool) :
    (Except DBError (List Nat × List ClinicalRecord)) × DBState :=
  match rs with
  | [] => (.ok ([], []), s)
  | r :: rest =>
      match driver_add_ehr s r with
      | .ok (n, s1) =>
          match driver_add_ehrs s1 rest skip with
          | (.ok (saved, dups), s2) => (.ok (n :: saved, dups), s2)
          | (.error e, s2) => (.error e, s2)
      | .error _ =>
          if skip then
            match driver_add_ehrs s rest skip with
            | (.ok (saved, dups), s2) => (.ok (saved, r :: dups), s2)
            | (.error e, s2) => (.error e, s2)
          else (.error .duplicatedKeyError, s)

/-- DBServices.save_ehr_records: bind all records to the patient, batch
insert, keep as saved the input records whose id the driver reported as
saved, decode the duplicate documents, and (DBServices._add_ehr_records)
extend the patient linkage with the saved records only. -/
def save_ehr_records (s : DBState) (rs : List ClinicalRecord)
    (p : PatientRecord) (skip : Bool) :
    DBResult (List ClinicalRecord × PatientRecord × List ClinicalRecord) :=
  let bound := rs.map (fun r => bind_to_patient r p)
  match driver_add_ehrs s bound skip with
  | (.error e, s1) => (.error e, s1)
  | (.ok (saved, dup_docs), s1) =>
      let saved_records := bound.filter (fun r =>
        match r.record_id with
        | some n => saved.contains n
        | none => false)
      let (ts, s2) := driver_patient_extend_list s1 p.record_id
        (saved_records.map (fun r => r.record_id))
      let p1 := { p with last_update := ts,
                         ehr_records := p.ehr_records ++ saved_records }
      (.ok (saved_records, p1, dup_docs), s2)

/-- DBServices.delete_ehr_record: hard delete of the stored clinical
document followed by the revision purge. -/
def delete_ehr_record (s : DBState) (r : ClinicalRecord) : DBState :=
  let s1 := { s with ehrs := s.ehrs.filter (fun d => d.record_id != r.record_id) }
  vm_remove_revisions s1 r.record_id

/-- Modelled from the spec: the in-memory unlink
patient.ehr_records.pop(patient.ehr_records.index(ehr_record)) — removal of
the first element matching by id, failing when none matches. -/
def pop_by_id (l : List ClinicalRecord) (i : Option Nat) :
    Option (List ClinicalRecord) :=
  match l with
  | [] => none
  | x :: xs =>
      if x.record_id == i then some xs
      else
        match pop_by_id xs i with
        | none => none
        | some ys => some (x :: ys)

/-- DBServices.remove_ehr_record: unlink the record id from the stored
patient linkage (first match, not-linked error when absent), hard-delete
the record with its revision purge, pop it from the in-memory list, then
reset the in-memory record — full identity reset when new_record_id, else
version-only reset. -/
def remove_ehr_record (s : DBState) (r : ClinicalRecord) (p : PatientRecord)
    (new_record_id : Bool) : DBResult (ClinicalRecord × PatientRecord) :=
  match driver_patient_remove_from_list s p.record_id r.record_id with
  | (.error e, s1) => (.error e, s1)
  | (.ok ts, s1) =>
      let s2 := delete_ehr_record s1 r
      match pop_by_id p.ehr_records r.record_id with
      | none => (.error .notLinkedError, s2)
      | some recs =>
          let p1 := { p with last_update := ts, ehr_records := recs }
          let r1 := if new_record_id then r.reset else r.reset_version
          (.ok (r1, p1), s2)

/-- DBServices.move_ehr_record: detach from the source patient with
new_record_id set to False, then save into the destination patient. -/
def move_ehr_record (s : DBState) (src dest : PatientRecord)
    (r : ClinicalRecord) : DBResult (PatientRecord × PatientRecord) :=
  match remove_ehr_record s r src false with
  | (.error e, s1) => (.error e, s1)
  | (.ok (r1, src1), s1) =>
      match save_ehr_record s1 r1 dest with
      | (.error e, s2) => (.error e, s2)
      | (.ok (_, dest1), s2) => (.ok (src1, dest1), s2)

/-- Modelled from the spec: Driver Port decodeRecord of a patient document —
the linked ids become reference-only clinical record stubs. -/
def decode_ehr_stub (i : Option Nat) : ClinicalRecord :=
  { record_id := i, patient_id := none, active := true, last_update := 0,
    version := 1, ehr_data := 0 }

def decode_patient_doc (d : PatientDoc) : PatientRecord :=
  { record_id := some d.record_id, active := d.active,
    last_update := d.last_update,
    ehr_records := d.ehr_refs.map decode_ehr_stub }

/-- The hydration loop of DBServices._fetch_patient_data_full: every linked
ref is fetched (a missing document makes the source raise on
ehr_doc[active]) and kept exactly when fetch_hidden_ehr is set or the
stored document is active. -/
def fetch_ehr_list (s : DBState) (fetch_hidden : Bool) :
    List ClinicalRecord → Except DBError (List ClinicalRecord)
  | [] => .ok []
  | stub :: rest =>
      match ehr_lookup s stub.record_id with
      | none => .error .noneTypeError
      | some doc =>
          match fetch_ehr_list s fetch_hidden rest with
          | .error e => .error e
          | .ok tail =>
              if fetch_hidden || doc.active then .ok (doc :: tail) else .ok tail

/-- DBServices._fetch_patient_data_full.  The fetch_ehr_records flag only
selects deep versus reference-only decoding of each kept document, which is
invisible in this flat record model; the filtering is unaffected by it. -/
def fetch_patient_data_full (s : DBState) (d : PatientDoc)
    (fetch_ehr_records fetch_hidden : Bool) : Except DBError PatientRecord :=
  let p := decode_patient_doc d
  match fetch_ehr_list s fetch_hidden p.ehr_records with
  | .error e => .error e
  | .ok recs => .ok { p with ehr_records := recs }

/-- DBServices.get_patient: load the stored patient document by id (None
when absent) and hydrate its clinical records. -/
def get_patient (s : DBState) (patient_id : Option Nat)
    (fetch_ehr_records fetch_hidden : Bool) :
    Except DBError (Option PatientRecord) :=
  match patient_lookup s patient_id with
  | none => .ok none
  | some d =>
      match fetch_patient_data_full s d fetch_ehr_records fetch_hidden with
      | .error e => .error e
      | .ok p => .ok (some p)

/-- DBServices.get_patients: list the stored patients (only the active ones
unless asked otherwise) and hydrate each one. -/
def get_patients (s : DBState)
    (active_records_only fetch_ehr_records fetch_hidden : Bool) :
    Except DBError (List PatientRecord) :=
  let docs := if active_records_only then s.patients.filter (fun d => d.active)
              else s.patients
  docs.mapM (fun d => fetch_patient_data_full s d fetch_ehr_records fetch_hidden)

/-- DBServices.hide_ehr_record: no-op on an already inactive record, else
mark inactive through the Version Manager. -/
def hide_ehr_record (s : DBState) (r : ClinicalRecord) :
    ClinicalRecord × DBState :=
  if r.active then vm_update_active s r false else (r, s)

/-- The loop of DBServices.hide_patient over the bound clinical records;
the Python loop mutates each list element in place, returned here as the
updated list. -/
def hide_ehr_list : DBState → List ClinicalRecord →
    List ClinicalRecord × DBState
  | s, [] => ([], s)
  | s, r :: rest =>
      let (r1, s1) := hide_ehr_record s r
      let (rest1, s2) := hide_ehr_list s1 rest
      (r1 :: rest1, s2)

/-- DBServices.hide_patient: no-op on an already inactive patient, else
hide every currently bound active clinical record, then hide the patient
itself (active false, last_update bumped). -/
def hide_patient (s : DBState) (p : PatientRecord) : PatientRecord × DBState :=
  if p.active then
    let (recs, s1) := hide_ehr_list s p.ehr_records
    let (ts, s2) := driver_patient_update_active s1 p.record_id false
    ({ p with ehr_records := recs, active := false, last_update := ts }, s2)
  else (p, s)

/-- The cascade loop of DBServices.delete_patient. -/
def delete_ehr_list : DBState → List ClinicalRecord → DBState
  | s, [] => s
  | s, r :: rest => delete_ehr_list (delete_ehr_record s r) rest

/-- DBServices.delete_patient: reload the patient by id (refs only, hidden
included) for an authoritative link count; with linked records and no
cascade, raise the cascade-delete error naming id and count; otherwise
delete every linked clinical record, then the patient document.  A reload
miss makes the source raise on None.ehr_records. -/
def delete_patient (s : DBState) (p : PatientRecord) (cascade : Bool) :
    DBResult Unit :=
  match get_patient s p.record_id false true with
  | .error e => (.error e, s)
  | .ok none => (.error .noneTypeError, s)
  | .ok (some p') =>
      if !cascade && 0 < p'.ehr_records.length then
        (.error (.cascadeDeleteError p'.record_id p'.ehr_records.length), s)
      else
        let s1 := delete_ehr_list s p'.ehr_records
        (.ok (), { s1 with patients := s1.patients.filter (fun d =>
                     some d.record_id != p'.record_id) })

/-- Specification predicate: the record's preset id does not collide with a
stored clinical document, so a batch insert into state s accepts it. -/
def fresh_for (s : DBState) (r : ClinicalRecord) : Bool :=
  match r.record_id with
  | some n => !(ehr_exists s n)
  | none => true

/-! ## Lemmas about the utility functions -/

theorem decode_list_eq_map (xs : List PyVal) :
    decode_list xs = xs.map decode_item := by
  induction xs with
  | nil => simp [decode_list]
  | cons x xs ih => simp [decode_list, ih]

theorem decode_pairs_eq_map (kvs : List (PyKey × PyVal)) :
    decode_pairs kvs = kvs.map (fun kv => (decode_key kv.1, decode_item kv.2)) := by
  induction kvs with
  | nil => simp [decode_pairs]
  | cons kv kvs ih =>
      obtain ⟨k, v⟩ := kv
      simp [decode_pairs, ih]

theorem mem_map_fst_dict_assign (l : List (PyKey × PyVal)) (k k₀ : PyKey)
    (v : PyVal) (h : k₀ ∈ l.map Prod.fst ∨ k₀ = k) :
    k₀ ∈ (dict_assign l k v).map Prod.fst := by
  induction l with
  | nil =>
      rcases h with h | rfl
      · simp at h
      · simp [dict_assign]
  | cons p rest ih =>
      obtain ⟨k', v'⟩ := p
      by_cases hk : k' = k
      · subst hk
        rcases h with h | rfl
        · simpa [dict_assign] using h
        · simp [dict_assign]
      · rcases h with h | rfl
        · simp only [List.map_cons, List.mem_cons] at h
          rcases h with rfl | h
          · simp [dict_assign, hk]
          · simp only [dict_assign, if_neg hk, List.map_cons, List.mem_cons]
            exact Or.inr (ih (Or.inl h))
        · simp only [dict_assign, if_neg hk, List.map_cons, List.mem_cons]
          exact Or.inr (ih (Or.inr rfl))

theorem mem_dict_assign (l : List (PyKey × PyVal)) (k : PyKey) (v : PyVal)
    (p : PyKey × PyVal) : p ∈ dict_assign l k v → p ∈ l ∨ p = (k, v) := by
  induction l with
  | nil =>
      intro h
      simpa [dict_assign] using h
  | cons q rest ih =>
      intro h
      obtain ⟨k', v'⟩ := q
      simp only [dict_assign] at h
      by_cases hk : k' = k
      · rw [if_pos hk] at h
        rcases List.mem_cons.1 h with h1 | h1
        · right
          rw [h1, hk]
        · left
          exact List.mem_cons_of_mem _ h1
      · rw [if_neg hk] at h
        rcases List.mem_cons.1 h with h1 | h1
        · left
          exact List.mem_cons.2 (Or.inl h1)
        · rcases ih h1 with h2 | h2
          · left
            exact List.mem_cons_of_mem _ h2
          · right
            exact h2

theorem dict_assign_all_covers (l : List (PyKey × PyVal)) :
    ∀ acc : List (PyKey × PyVal),
      (∀ k₀, k₀ ∈ acc.map Prod.fst → k₀ ∈ (dict_assign_all acc l).map Prod.fst) ∧
      (∀ p ∈ l, p.1 ∈ (dict_assign_all acc l).map Prod.fst) := by
  induction l with
  | nil =>
      intro acc
      refine ⟨fun k₀ h => ?_, fun p hp => ?_⟩
      · simpa [dict_assign_all] using h
      · simp at hp
  | cons hd tl ih =>
      intro acc
      obtain ⟨k, v⟩ := hd
      refine ⟨fun k₀ h => ?_, fun p hp => ?_⟩
      · have h' := mem_map_fst_dict_assign acc k k₀ v (Or.inl h)
        have := (ih (dict_assign acc k v)).1 k₀ h'
        simpa [dict_assign_all] using this
      · rcases List.mem_cons.1 hp with hp0 | hp'
        · have hfst : p.1 = k := by rw [hp0]
          have h' := mem_map_fst_dict_assign acc k p.1 v (Or.inr hfst)
          have := (ih (dict_assign acc k v)).1 p.1 h'
          simpa [dict_assign_all] using this
        · have := (ih (dict_assign acc k v)).2 p hp'
          simpa [dict_assign_all] using this

theorem mem_dict_assign_all (l : List (PyKey × PyVal)) :
    ∀ acc p, p ∈ dict_assign_all acc l → p ∈ acc ∨ p ∈ l := by
  induction l with
  | nil => intro acc p h; simpa [dict_assign_all] using h
  | cons hd tl ih =>
      intro acc p h
      obtain ⟨k, v⟩ := hd
      simp only [dict_assign_all] at h
      rcases ih (dict_assign acc k v) p h with h' | h'
      · rcases mem_dict_assign acc k v p h' with h'' | rfl
        · exact Or.inl h''
        · exact Or.inr (List.mem_cons_self _ _)
      · exact Or.inr (List.mem_cons_of_mem _ h')

theorem cleanup_ok_clean :
    ∀ v r, cleanup_json v = .ok r → r.isNull = true ∨ no_junk r = true := by
  refine cleanup_json.induct
    (fun v => ∀ r, cleanup_json v = .ok r → r.isNull = true ∨ no_junk r = true)
    (fun fields => ∀ l, cleanup_fields fields = .ok l → no_junk_fields l = true)
    (fun v => ∀ r, cleanup_value v = .ok r → r.isNull = true ∨ no_junk r = true)
    (fun items => ∀ l, cleanup_items items = .ok l → no_junk_items l = true)
    ?_ ?_ ?_ ?_ ?_ ?_ ?_ ?_ ?_ ?_ ?_ ?_ ?_ ?_ ?_ ?_ ?_ ?_ ?_ ?_
  · intro fields e herr _ r hr
    simp [cleanup_json, herr] at hr
  · intro fields cleaned hok hemp _ r hr
    simp [cleanup_json, hok, hemp] at hr
    subst hr
    exact Or.inl rfl
  · intro fields cleaned hok hemp ih r hr
    simp [cleanup_json, hok, hemp] at hr
    subst hr
    refine Or.inr ?_
    simp [no_junk, hemp, ih cleaned hok]
  · intro x hnotobj r hr
    cases x with
    | obj fields => exact absurd rfl (hnotobj fields)
    | null => simp [cleanup_json] at hr
    | boolean b => simp [cleanup_json] at hr
    | num n => simp [cleanup_json] at hr
    | str s => simp [cleanup_json] at hr
    | arr items => simp [cleanup_json] at hr
  · intro l hl
    simp [cleanup_fields] at hl
    subst hl
    rfl
  · intro k v rest e herr _ l hl
    simp [cleanup_fields, herr] at hl
  · intro k v rest i hok e herr _ _ l hl
    simp [cleanup_fields, hok, herr] at hl
  · intro k v rest i hok cleaned hrest hnull _ ihrest l hl
    simp [cleanup_fields, hok, hrest, hnull] at hl
    subst hl
    exact ihrest cleaned hrest
  · intro k v rest i hok cleaned hrest hnull ihv ihrest l hl
    simp [cleanup_fields, hok, hrest, hnull] at hl
    subst hl
    have hv : no_junk i = true := by
      rcases ihv i hok with h | h
      · exact absurd h hnull
      · exact h
    simp [no_junk_fields, hv, ihrest cleaned hrest]
  · intro fields ih r hr
    simp only [cleanup_value] at hr
    exact ih r hr
  · intro items e herr _ r hr
    simp [cleanup_value, herr] at hr
  · intro items cleaned hok hemp _ r hr
    simp [cleanup_value, hok, hemp] at hr
    subst hr
    exact Or.inl rfl
  · intro items cleaned hok hemp ih r hr
    simp [cleanup_value, hok, hemp] at hr
    subst hr
    refine Or.inr ?_
    simp [no_junk, hemp, ih cleaned hok]
  · intro v hnotobj hnotarr r hr
    cases v with
    | obj fields => exact absurd rfl (hnotobj fields)
    | arr items => exact absurd rfl (hnotarr items)
    | null =>
        simp [cleanup_value] at hr
        subst hr
        exact Or.inl rfl
    | boolean b =>
        simp [cleanup_value] at hr
        subst hr
        exact Or.inr rfl
    | num n =>
        simp [cleanup_value] at hr
        subst hr
        exact Or.inr rfl
    | str s =>
        simp [cleanup_value] at hr
        subst hr
        exact Or.inr rfl
  · intro l hl
    simp [cleanup_items] at hl
    subst hl
    rfl
  · intro item rest hnull ih l hl
    simp [cleanup_items, hnull] at hl
    exact ih l hl
  · intro item rest hnull e herr _ l hl
    simp [cleanup_items, hnull, herr] at hl
  · intro item rest hnull i hok e herr _ _ l hl
    simp [cleanup_items, hnull, hok, herr] at hl
  · intro item rest hnull i hok cleaned hrest hinull _ ihrest l hl
    simp [cleanup_items, hnull, hok, hrest, hinull] at hl
    subst hl
    exact ihrest cleaned hrest
  · intro item rest hnull i hok cleaned hrest hinull ihitem ihrest l hl
    simp [cleanup_items, hnull, hok, hrest, hinull] at hl
    subst hl
    have hv : no_junk i = true := by
      rcases ihitem i hok with h | h
      · exact absurd h hinull
      · exact h
    simp [no_junk_items, hv, ihrest cleaned hrest]

/-! ## Lemmas about the coordination layer -/

theorem hide_ehr_record_fst_active (s : DBState) (r : ClinicalRecord) :
    (hide_ehr_record s r).1.active = false := by
  by_cases hr : r.active
  · cases hl : ehr_lookup s r.record_id <;>
      simp [hide_ehr_record, hr, vm_update_active, hl]
  · simp only [Bool.not_eq_true] at hr
    simp [hide_ehr_record, hr]

theorem hide_ehr_record_clock (s : DBState) (r : ClinicalRecord) :
    s.clock ≤ (hide_ehr_record s r).2.clock := by
  by_cases hr : r.active
  · cases hl : ehr_lookup s r.record_id <;>
      simp [hide_ehr_record, hr, vm_update_active, hl]
  · simp only [Bool.not_eq_true] at hr
    simp [hide_ehr_record, hr]

theorem hide_ehr_list_clock (rs : List ClinicalRecord) :
    ∀ s : DBState, s.clock ≤ (hide_ehr_list s rs).2.clock := by
  induction rs with
  | nil => intro s; simp [hide_ehr_list]
  | cons r rest ih =>
      intro s
      rcases h1 : hide_ehr_record s r with ⟨r1, s1⟩
      rcases h2 : hide_ehr_list s1 rest with ⟨rest1, s2⟩
      have ha : s.clock ≤ s1.clock := by
        have := hide_ehr_record_clock s r
        rw [h1] at this
        exact this
      have hb : s1.clock ≤ s2.clock := by
        have := ih s1
        rw [h2] at this
        exact this
      simp only [hide_ehr_list, h1, h2]
      exact le_trans ha hb

theorem hide_ehr_list_all_inactive (rs : List ClinicalRecord) :
    ∀ s : DBState, ∀ r' ∈ (hide_ehr_list s rs).1, r'.active = false := by
  induction rs with
  | nil => intro s r' h; simp [hide_ehr_list] at h
  | cons r rest ih =>
      intro s r' h
      rcases h1 : hide_ehr_record s r with ⟨r1, s1⟩
      rcases h2 : hide_ehr_list s1 rest with ⟨rest1, s2⟩
      simp only [hide_ehr_list, h1, h2] at h
      rcases List.mem_cons.1 h with h' | h'
      · have := hide_ehr_record_fst_active s r
        rw [h1] at this
        rw [h']
        exact this
      · have := ih s1 r'
        rw [h2] at this
        exact this h'

theorem driver_patient_update_active_ts (s : DBState) (i : Option Nat)
    (v : Bool) : (driver_patient_update_active s i v).1 = s.clock + 1 := by
  cases i <;> simp [driver_patient_update_active]

theorem hide_patient_fst_active (s : DBState) (p : PatientRecord) :
    (hide_patient s p).1.active = false := by
  by_cases hp : p.active
  · rcases h1 : hide_ehr_list s p.ehr_records with ⟨recs, s1⟩
    rcases h2 : driver_patient_update_active s1 p.record_id false with ⟨ts, s2⟩
    simp [hide_patient, hp, h1, h2]
  · simp only [Bool.not_eq_true] at hp
    simp [hide_patient, hp]

theorem ehr_lookup_id (s : DBState) (i : Option Nat) (d : ClinicalRecord)
    (h : ehr_lookup s i = some d) : d.record_id = i := by
  cases i with
  | none => simp [ehr_lookup] at h
  | some n =>
      simp only [ehr_lookup] at h
      have := List.find?_some h
      simpa using this

theorem patient_lookup_id (s : DBState) (i : Option Nat) (d : PatientDoc)
    (h : patient_lookup s i = some d) : some d.record_id = i := by
  cases i with
  | none => simp [patient_lookup] at h
  | some n =>
      simp only [patient_lookup] at h
      have := List.find?_some h
      simpa using this

/-- The hydration predicate of the fetch loop, as a filterMap step. -/
def hydrate_step (s : DBState) (hflag : Bool) (ref : Option Nat) :
    Option ClinicalRecord :=
  match ehr_lookup s ref with
  | none => none
  | some d => if hflag || d.active then some d else none

theorem fetch_ehr_list_eq_filterMap (s : DBState) (hflag : Bool) :
    ∀ stubs : List ClinicalRecord,
      (∀ st ∈ stubs, ∃ d, ehr_lookup s st.record_id = some d) →
      fetch_ehr_list s hflag stubs =
        .ok (stubs.filterMap (fun st => hydrate_step s hflag st.record_id)) := by
  intro stubs
  induction stubs with
  | nil => intro _; simp [fetch_ehr_list]
  | cons st rest ih =>
      intro hres
      obtain ⟨d, hd⟩ := hres st (List.mem_cons_self _ _)
      have hrest := ih (fun x hx => hres x (List.mem_cons_of_mem _ hx))
      by_cases hk : (hflag || d.active) = true
      · have hk' : hflag = true ∨ d.active = true := by simpa using hk
        simp [fetch_ehr_list, hd, hrest, List.filterMap_cons, hydrate_step, hk']
      · simp only [Bool.not_eq_true] at hk
        have hk' : ¬(hflag = true ∨ d.active = true) := by
          simpa using hk
        simp [fetch_ehr_list, hd, hrest, List.filterMap_cons, hydrate_step, hk']

theorem hydrate_step_true (s : DBState) (ref : Option Nat) :
    hydrate_step s true ref = ehr_lookup s ref := by
  cases h : ehr_lookup s ref <;> simp [hydrate_step, h]

theorem filterMap_lookup_ids (s : DBState) :
    ∀ refs : List (Option Nat),
      (∀ ref ∈ refs, ∃ d, ehr_lookup s ref = some d) →
      (refs.filterMap (fun ref => ehr_lookup s ref)).map (fun r => r.record_id)
        = refs := by
  intro refs
  induction refs with
  | nil => intro _; simp
  | cons ref rest ih =>
      intro hres
      obtain ⟨d, hd⟩ := hres ref (List.mem_cons_self _ _)
      have hrest := ih (fun x hx => hres x (List.mem_cons_of_mem _ hx))
      simp [List.filterMap_cons, hd, hrest, ehr_lookup_id s ref d hd]

/-- DBServices.get_patient on a stored patient document whose linked ids
all resolve: the returned record carries the decoded patient fields and the
hydrated, filtered clinical record list. -/
theorem get_patient_some (s : DBState) (n : Nat) (pdoc : PatientDoc)
    (f hflag : Bool)
    (hp : patient_lookup s (some n) = some pdoc)
    (hres : ∀ ref ∈ pdoc.ehr_refs, ∃ d, ehr_lookup s ref = some d) :
    get_patient s (some n) f hflag =
      .ok (some { record_id := some pdoc.record_id, active := pdoc.active,
                  last_update := pdoc.last_update,
                  ehr_records := pdoc.ehr_refs.filterMap
                    (fun ref => hydrate_step s hflag ref) }) := by
  have hstubs : ∀ st ∈ pdoc.ehr_refs.map decode_ehr_stub,
      ∃ d, ehr_lookup s st.record_id = some d := by
    intro st hst
    obtain ⟨ref, href, rfl⟩ := List.mem_map.1 hst
    exact hres ref href
  have hfetch := fetch_ehr_list_eq_filterMap s hflag
    (pdoc.ehr_refs.map decode_ehr_stub) hstubs
  simp only [get_patient, hp, fetch_patient_data_full, decode_patient_doc,
    hfetch, List.filterMap_map]
  rfl

theorem filterMap_hydrate_true (s : DBState) (refs : List (Option Nat))
    (hres : ∀ ref ∈ refs, ∃ d, ehr_lookup s ref = some d) :
    refs.filterMap (fun ref => hydrate_step s true ref)
      = refs.filterMap (fun ref => ehr_lookup s ref) := by
  simp [hydrate_step_true]

theorem filterMap_lookup_length (s : DBState) (refs : List (Option Nat))
    (hres : ∀ ref ∈ refs, ∃ d, ehr_lookup s ref = some d) :
    (refs.filterMap (fun ref => ehr_lookup s ref)).length = refs.length := by
  have hmapids := filterMap_lookup_ids s refs hres
  calc (refs.filterMap (fun ref => ehr_lookup s ref)).length
      = ((refs.filterMap (fun ref => ehr_lookup s ref)).map
          (fun r => r.record_id)).length := by simp
    _ = refs.length := by rw [hmapids]

theorem delete_ehr_record_patients (s : DBState) (r : ClinicalRecord) :
    (delete_ehr_record s r).patients = s.patients := by
  simp [delete_ehr_record, vm_remove_revisions]

theorem delete_ehr_record_ehrs (s : DBState) (r : ClinicalRecord) :
    (delete_ehr_record s r).ehrs
      = s.ehrs.filter (fun d => d.record_id != r.record_id) := by
  simp [delete_ehr_record, vm_remove_revisions]

theorem delete_ehr_record_revisions (s : DBState) (r : ClinicalRecord) :
    (delete_ehr_record s r).revisions
      = s.revisions.filter (fun d => d.record_id != r.record_id) := by
  simp [delete_ehr_record, vm_remove_revisions]

theorem delete_ehr_list_patients (rs : List ClinicalRecord) :
    ∀ s, (delete_ehr_list s rs).patients = s.patients := by
  induction rs with
  | nil => intro s; simp [delete_ehr_list]
  | cons r rest ih =>
      intro s
      rw [delete_ehr_list, ih, delete_ehr_record_patients]

theorem delete_ehr_list_ehrs (rs : List ClinicalRecord) :
    ∀ s, (delete_ehr_list s rs).ehrs
      = s.ehrs.filter (fun d => rs.all (fun r => d.record_id != r.record_id)) := by
  induction rs with
  | nil => intro s; simp [delete_ehr_list]
  | cons r rest ih =>
      intro s
      rw [delete_ehr_list, ih, delete_ehr_record_ehrs, List.filter_filter]
      apply List.filter_congr
      intro x _
      rw [List.all_cons]
      exact Bool.and_comm _ _

theorem delete_ehr_list_revisions (rs : List ClinicalRecord) :
    ∀ s, (delete_ehr_list s rs).revisions
      = s.revisions.filter (fun d => rs.all (fun r => d.record_id != r.record_id)) := by
  induction rs with
  | nil => intro s; simp [delete_ehr_list]
  | cons r rest ih =>
      intro s
      rw [delete_ehr_list, ih, delete_ehr_record_revisions, List.filter_filter]
      apply List.filter_congr
      intro x _
      rw [List.all_cons]
      exact Bool.and_comm _ _

theorem find?_ehr_not_exists (s : DBState) (n : Nat)
    (h : ehr_exists s n = false) :
    s.ehrs.find? (fun d => d.record_id == some n) = none := by
  simp only [ehr_exists] at h
  rw [List.find?_eq_none]
  exact List.any_eq_false.1 h

theorem find?_patient_update (pl : List PatientDoc) (n : Nat)
    (f : PatientDoc → PatientDoc) (hf : ∀ d, (f d).record_id = d.record_id) :
    (pl.map (fun d => if d.record_id == n then f d else d)).find?
        (fun d => d.record_id == n)
      = Option.map f (pl.find? (fun d => d.record_id == n)) := by
  induction pl with
  | nil => rfl
  | cons d rest ih =>
      rw [List.map_cons]
      by_cases hd : (d.record_id == n) = true
      · have hfd : ((f d).record_id == n) = true := by
          rw [hf d]
          exact hd
        rw [if_pos hd,
          @List.find?_cons_of_pos _ (fun d => d.record_id == n) (f d) _ hfd,
          @List.find?_cons_of_pos _ (fun d => d.record_id == n) d _ hd]
        rfl
      · rw [if_neg hd,
          @List.find?_cons_of_neg _ (fun d => d.record_id == n) d _ hd,
          @List.find?_cons_of_neg _ (fun d => d.record_id == n) d _ hd]
        exact ih

theorem find?_patient_update_other (pl : List PatientDoc) (n m : Nat)
    (hnm : ¬ m = n)
    (f : PatientDoc → PatientDoc) (hf : ∀ d, (f d).record_id = d.record_id) :
    (pl.map (fun d => if d.record_id == n then f d else d)).find?
        (fun d => d.record_id == m)
      = pl.find? (fun d => d.record_id == m) := by
  induction pl with
  | nil => rfl
  | cons d rest ih =>
      rw [List.map_cons]
      by_cases hd : (d.record_id == n) = true
      · have hdn : d.record_id = n := by simpa using hd
        have hdm : ¬ (d.record_id == m) = true := by
          simp [hdn]
          intro h
          exact hnm h.symm
        have hfm : ¬ ((f d).record_id == m) = true := by
          rw [hf d]
          exact hdm
        rw [if_pos hd,
          @List.find?_cons_of_neg _ (fun d => d.record_id == m) (f d) _ hfm,
          @List.find?_cons_of_neg _ (fun d => d.record_id == m) d _ hdm]
        exact ih
      · rw [if_neg hd]
        by_cases hdm : (d.record_id == m) = true
        · rw [@List.find?_cons_of_pos _ (fun d => d.record_id == m) d _ hdm,
            @List.find?_cons_of_pos _ (fun d => d.record_id == m) d _ hdm]
        · rw [@List.find?_cons_of_neg _ (fun d => d.record_id == m) d _ hdm,
            @List.find?_cons_of_neg _ (fun d => d.record_id == m) d _ hdm]
          exact ih

/-- Full characterization of a successful DBServices.save_ehr_record: the
detail is bound and appended to the store, and the patient linkage (stored
refs and in-memory list) is extended with it after the insert. -/
theorem save_ehr_record_ok (s : DBState) (r : ClinicalRecord) (p : PatientRecord)
    (i n : Nat) (hrid : r.record_id = some i) (hpid : p.record_id = some n)
    (hex : ehr_exists s i = false) :
    save_ehr_record s r p =
      (.ok (bind_to_patient r p,
            { p with last_update := s.clock + 1,
                     ehr_records := p.ehr_records ++ [bind_to_patient r p] }),
       { s with
         ehrs := s.ehrs ++ [bind_to_patient r p],
         clock := s.clock + 1,
         patients := s.patients.map (fun d =>
           if d.record_id == n then
             { d with ehr_refs := d.ehr_refs ++ [some i],
                      last_update := s.clock + 1 }
           else d) }) := by
  have hb : (bind_to_patient r p).record_id = some i := by
    simp [bind_to_patient, hrid]
  simp [save_ehr_record, driver_add_ehr, hb, hex,
    driver_patient_add_to_list, hpid]

/-- DBServices.save_ehr_record propagates the duplicate-key failure of the
driver insert without touching the store or the patient linkage. -/
theorem save_ehr_record_dup (s : DBState) (r : ClinicalRecord) (p : PatientRecord)
    (i : Nat) (hrid : r.record_id = some i)
    (hex : ehr_exists s i = true) :
    save_ehr_record s r p = (.error .duplicatedKeyError, s) := by
  have hb : (bind_to_patient r p).record_id = some i := by
    simp [bind_to_patient, hrid]
  simp [save_ehr_record, driver_add_ehr, hb, hex]

theorem pop_by_id_of_mem (i : Option Nat) :
    ∀ l : List ClinicalRecord, (∃ x ∈ l, x.record_id = i) →
      ∃ ys, pop_by_id l i = some ys := by
  intro l
  induction l with
  | nil =>
      intro h
      obtain ⟨x, hx, _⟩ := h
      simp at hx
  | cons x xs ih =>
      intro h
      obtain ⟨y, hy, hyi⟩ := h
      by_cases hx : (x.record_id == i) = true
      · exact ⟨xs, by simp [pop_by_id, hx]⟩
      · rcases List.mem_cons.1 hy with heq | hy'
        · subst heq
          exact absurd (by simp [hyi]) hx
        · obtain ⟨ys, hys⟩ := ih ⟨y, hy', hyi⟩
          exact ⟨x :: ys, by simp [pop_by_id, hx, hys]⟩

theorem pop_by_id_filter_length (i : Option Nat) :
    ∀ l ys, pop_by_id l i = some ys →
      (ys.filter (fun x => x.record_id == i)).length
        = (l.filter (fun x => x.record_id == i)).length - 1 := by
  intro l
  induction l with
  | nil => intro ys h; simp [pop_by_id] at h
  | cons x xs ih =>
      intro ys h
      by_cases hx : (x.record_id == i) = true
      · simp only [pop_by_id, if_pos hx] at h
        obtain rfl : xs = ys := by simpa using h
        simp [List.filter_cons, hx]
      · simp only [pop_by_id, if_neg hx] at h
        cases hp : pop_by_id xs i with
        | none => rw [hp] at h; simp at h
        | some zs =>
            rw [hp] at h
            obtain rfl : x :: zs = ys := by simpa using h
            have hx' : (x.record_id == i) = false := by simpa using hx
            simp only [List.filter_cons, hx', Bool.false_eq_true, if_neg,
              ite_false]
            exact ih zs hp

theorem driver_remove_from_list_ok (s : DBState) (n : Nat) (e : Option Nat)
    (pdoc : PatientDoc)
    (hp : patient_lookup s (some n) = some pdoc) (he : e ∈ pdoc.ehr_refs) :
    driver_patient_remove_from_list s (some n) e =
      (.ok (s.clock + 1),
       { s with clock := s.clock + 1,
                patients := s.patients.map (fun d' =>
                  if d'.record_id == n then
                    { d' with ehr_refs := d'.ehr_refs.erase e,
                              last_update := s.clock + 1 }
                  else d') }) := by
  simp [driver_patient_remove_from_list, hp, he]

theorem driver_remove_from_list_notlinked (s : DBState) (n : Nat)
    (e : Option Nat) (pdoc : PatientDoc)
    (hp : patient_lookup s (some n) = some pdoc) (he : e ∉ pdoc.ehr_refs) :
    driver_patient_remove_from_list s (some n) e = (.error .notLinkedError, s) := by
  simp [driver_patient_remove_from_list, hp, he]

/-- Full characterization of a successful DBServices.remove_ehr_record: the
stored linkage loses the first matching ref, the in-memory list loses the
first matching instance, the stored document and its revisions are purged,
and the record is reset according to new_record_id. -/
theorem remove_ehr_record_ok (s : DBState) (r : ClinicalRecord)
    (p : PatientRecord) (i n : Nat) (pdoc : PatientDoc)
    (ys : List ClinicalRecord) (b : Bool)
    (hrid : r.record_id = some i) (hpid : p.record_id = some n)
    (hp : patient_lookup s (some n) = some pdoc)
    (he : some i ∈ pdoc.ehr_refs)
    (hpop : pop_by_id p.ehr_records (some i) = some ys) :
    remove_ehr_record s r p b =
      (.ok ((if b then r.reset else r.reset_version),
            { p with last_update := s.clock + 1, ehr_records := ys }),
       { s with
         clock := s.clock + 1,
         patients := s.patients.map (fun d' =>
           if d'.record_id == n then
             { d' with ehr_refs := d'.ehr_refs.erase (some i),
                       last_update := s.clock + 1 }
           else d'),
         ehrs := s.ehrs.filter (fun d => d.record_id != some i),
         revisions := s.revisions.filter (fun d => d.record_id != some i) }) := by
  have hdr := driver_remove_from_list_ok s n (some i) pdoc hp he
  simp [remove_ehr_record, hpid, hrid, hdr, hpop, delete_ehr_record,
    vm_remove_revisions]

theorem ehr_exists_append_one (s : DBState) (r1 : ClinicalRecord) (m : Nat) :
    ehr_exists { s with ehrs := s.ehrs ++ [r1] } m
      = (ehr_exists s m || (r1.record_id == some m)) := by
  simp [ehr_exists, List.any_append]

/-- The sequential batch insert with skipDuplicates splits the input into
the records fresh for the initial store (inserted in order, their ids
reported as saved) and the colliding ones (collected as duplicates),
provided all ids are preset and pairwise distinct. -/
theorem driver_add_ehrs_skip :
    ∀ (rs : List ClinicalRecord) (s : DBState),
      (∀ r ∈ rs, r.record_id ≠ none) →
      (rs.map (fun r => r.record_id)).Nodup →
      driver_add_ehrs s rs true =
        (.ok ((rs.filter (fun r => fresh_for s r)).filterMap (fun r => r.record_id),
              rs.filter (fun r => !(fresh_for s r))),
         { s with ehrs := s.ehrs ++ rs.filter (fun r => fresh_for s r) }) := by
  intro rs
  induction rs with
  | nil =>
      intro s _ _
      simp [driver_add_ehrs]
  | cons r rest ih =>
      intro s hids hnodup
      obtain ⟨m, hm⟩ : ∃ m, r.record_id = some m := by
        cases hr : r.record_id with
        | none => exact absurd hr (hids r (List.mem_cons_self _ _))
        | some m => exact ⟨m, rfl⟩
      have hids' : ∀ x ∈ rest, x.record_id ≠ none :=
        fun x hx => hids x (List.mem_cons_of_mem _ hx)
      rw [List.map_cons] at hnodup
      have hnodup' : (rest.map (fun x => x.record_id)).Nodup :=
        (List.nodup_cons.1 hnodup).2
      have hnotmem : some m ∉ rest.map (fun x => x.record_id) := by
        rw [← hm]
        exact (List.nodup_cons.1 hnodup).1
      by_cases hf : fresh_for s r = true
      · have hex : ehr_exists s m = false := by
          simp only [fresh_for, hm] at hf
          simpa using hf
        have hadd : driver_add_ehr s r =
            .ok (m, { s with ehrs := s.ehrs ++ [r] }) := by
          simp [driver_add_ehr, hm, hex]
        have hsame : ∀ x ∈ rest,
            fresh_for ({ s with ehrs := s.ehrs ++ [r] }) x = fresh_for s x := by
          intro x hx
          cases hxr : x.record_id with
          | none => simp [fresh_for, hxr]
          | some m' =>
              have hmm : ¬ m' = m := by
                intro hcontr
                apply hnotmem
                exact List.mem_map.2 ⟨x, hx, by rw [hxr, hcontr]⟩
              simp only [fresh_for, hxr, ehr_exists_append_one, hm]
              have : ((some m : Option Nat) == some m') = false := by
                simp
                intro hcontr
                exact hmm hcontr.symm
              rw [this]
              simp
        have hrec := ih ({ s with ehrs := s.ehrs ++ [r] }) hids' hnodup'
        have hfiltr : rest.filter
            (fun x => fresh_for ({ s with ehrs := s.ehrs ++ [r] }) x)
              = rest.filter (fun x => fresh_for s x) :=
          List.filter_congr hsame
        have hfiltr' : rest.filter
            (fun x => !(fresh_for ({ s with ehrs := s.ehrs ++ [r] }) x))
              = rest.filter (fun x => !(fresh_for s x)) :=
          List.filter_congr (fun x hx => by rw [hsame x hx])
        rw [hfiltr, hfiltr'] at hrec
        simp only [driver_add_ehrs, hadd, hrec]
        rw [List.filter_cons_of_pos hf, List.filter_cons_of_neg (by simp [hf])]
        simp [List.filterMap_cons, hm]
      · have hex : ehr_exists s m = true := by
          simp only [fresh_for, hm] at hf
          simpa using hf
        have hadd : driver_add_ehr s r = .error .duplicatedKeyError := by
          simp [driver_add_ehr, hm, hex]
        have hrec := ih s hids' hnodup'
        simp only [driver_add_ehrs, hadd, hrec]
        rw [List.filter_cons_of_neg (by simp [hf]),
          List.filter_cons_of_pos (by simpa using hf)]
        simp

/-- Membership in the reported saved ids agrees with freshness, given
preset pairwise-distinct ids. -/
theorem saved_contains_eq_fresh :
    ∀ (rs : List ClinicalRecord) (s : DBState),
      (rs.map (fun r => r.record_id)).Nodup →
      ∀ r ∈ rs, ∀ m, r.record_id = some m →
        ((rs.filter (fun x => fresh_for s x)).filterMap
            (fun x => x.record_id)).contains m
          = fresh_for s r := by
  intro rs
  induction rs with
  | nil => intro s _ r hr; simp at hr
  | cons hd rest ih =>
      intro s hnodup r hr m hm
      rw [List.map_cons] at hnodup
      have hnodup' : (rest.map (fun x => x.record_id)).Nodup :=
        (List.nodup_cons.1 hnodup).2
      have hnotmem : hd.record_id ∉ rest.map (fun x => x.record_id) :=
        (List.nodup_cons.1 hnodup).1
      have hsub : ∀ m', ((rest.filter (fun x => fresh_for s x)).filterMap
          (fun x => x.record_id)).contains m' = true →
            some m' ∈ rest.map (fun x => x.record_id) := by
        intro m' hc
        obtain ⟨a, ha, hab⟩ := List.contains_iff_exists_mem_beq.1 hc
        obtain ⟨x, hx, hxa⟩ := List.mem_filterMap.1 ha
        have hax : m' = a := by simpa using hab
        subst hax
        exact List.mem_map.2 ⟨x, (List.mem_filter.1 hx).1, hxa⟩
      rcases List.mem_cons.1 hr with heq | hr'
      · subst heq
        by_cases hf : fresh_for s r = true
        · rw [List.filter_cons_of_pos hf]
          simp [List.filterMap_cons, hm, hf]
        · have hf' : fresh_for s r = false := by simpa using hf
          rw [List.filter_cons_of_neg (by simp [hf'])]
          rw [hf']
          by_cases hc : ((rest.filter (fun x => fresh_for s x)).filterMap
              (fun x => x.record_id)).contains m = true
          · exact absurd (by rw [hm]; exact hsub m hc) hnotmem
          · simpa using hc
      · have hih := ih s hnodup' r hr' m hm
        by_cases hf : fresh_for s hd = true
        · rw [List.filter_cons_of_pos hf]
          obtain ⟨m0, hm0⟩ : ∃ m0, hd.record_id = some m0 ∨ hd.record_id = none := by
            cases hd.record_id with
            | none => exact ⟨0, Or.inr rfl⟩
            | some m0 => exact ⟨m0, Or.inl rfl⟩
          rcases hm0 with hm0 | hm0
          · rw [List.filterMap_cons, hm0]
            have hmm : ¬ m0 = m := by
              intro hcontr
              apply hnotmem
              rw [hm0, hcontr, ← hm]
              exact List.mem_map.2 ⟨r, hr', rfl⟩
            simp only [List.contains_cons]
            have : (m == m0) = false := by
              simp
              intro hcontr
              exact hmm hcontr.symm
            rw [this]
            simpa using hih
          · rw [List.filterMap_cons, hm0]
            exact hih
        · rw [List.filter_cons_of_neg (by simpa using hf)]
          exact hih

/-! ## Claim theorems -/

/-- C2: save_ehr_record sets the detail's back-reference to the subject,
persists it through the driver, and only after the insert succeeds appends
the detail id once at the end of the subject's stored ehr_records refs and
the bound instance once at the end of the in-memory list (order preserved);
after a successful call the detail id is not nil, and when the insert fails
with a duplicate key nothing is linked and the state is untouched — so a
detail id is never linked into a subject unless the detail exists in the
store. -/
theorem claim_C2 (s : DBState) (r : ClinicalRecord) (p : PatientRecord)
    (i n : Nat) (pdoc : PatientDoc)
    (hrid : r.record_id = some i)
    (hpid : p.record_id = some n)
    (hp : patient_lookup s (some n) = some pdoc) :
    (ehr_exists s i = false →
      (save_ehr_record s r p).1 =
        .ok (bind_to_patient r p,
             { p with last_update := s.clock + 1,
                      ehr_records := p.ehr_records ++ [bind_to_patient r p] }) ∧
      (bind_to_patient r p).record_id ≠ none ∧
      (bind_to_patient r p).patient_id = some n ∧
      ehr_lookup (save_ehr_record s r p).2 (some i) = some (bind_to_patient r p) ∧
      patient_lookup (save_ehr_record s r p).2 (some n) =
        some { pdoc with ehr_refs := pdoc.ehr_refs ++ [some i],
                         last_update := s.clock + 1 } ∧
      (some i ∉ pdoc.ehr_refs →
        (pdoc.ehr_refs ++ [some i]).count (some i) = 1)) ∧
    (ehr_exists s i = true →
      save_ehr_record s r p = (.error .duplicatedKeyError, s)) := by
  have hp' : s.patients.find? (fun d => d.record_id == n) = some pdoc := by
    simpa [patient_lookup] using hp
  constructor
  · intro hex
    have hok := save_ehr_record_ok s r p i n hrid hpid hex
    refine ⟨by rw [hok], ?_, ?_, ?_, ?_, ?_⟩
    · simp [bind_to_patient, hrid]
    · simp [bind_to_patient, hpid]
    · rw [hok]
      simp only [ehr_lookup]
      rw [List.find?_append, find?_ehr_not_exists s i hex]
      simp [bind_to_patient, hrid]
    · rw [hok]
      simp only [patient_lookup]
      rw [find?_patient_update s.patients n
        (fun d => { d with ehr_refs := d.ehr_refs ++ [some i],
                           last_update := s.clock + 1 })
        (fun d => rfl), hp']
      rfl
    · intro hnot
      rw [List.count_append, List.count_eq_zero.2 hnot]
      simp
  · intro hex
    exact save_ehr_record_dup s r p i hrid hex

/-- Witness for C2: saving a fresh detail 10 into subject 1 links it once
after persisting it; retrying against a store already holding id 10 fails
with the duplicate-key error and leaves the state untouched. -/
theorem claim_C2_witness :
    ((save_ehr_record (⟨[⟨1, true, 0, []⟩], [], [], 0, 20⟩ : DBState)
        (⟨some 10, none, true, 0, 1, 7⟩ : ClinicalRecord)
        (⟨some 1, true, 0, []⟩ : PatientRecord)).1 =
      .ok (bind_to_patient (⟨some 10, none, true, 0, 1, 7⟩ : ClinicalRecord)
             (⟨some 1, true, 0, []⟩ : PatientRecord),
           { (⟨some 1, true, 0, []⟩ : PatientRecord) with
             last_update := 1,
             ehr_records := [bind_to_patient
               (⟨some 10, none, true, 0, 1, 7⟩ : ClinicalRecord)
               (⟨some 1, true, 0, []⟩ : PatientRecord)] })) ∧
    save_ehr_record
        (⟨[⟨1, true, 0, [some 10]⟩], [⟨some 10, some 1, true, 0, 1, 7⟩], [], 0, 20⟩ : DBState)
        (⟨some 10, none, true, 0, 1, 7⟩ : ClinicalRecord)
        (⟨some 1, true, 0, []⟩ : PatientRecord) =
      (.error .duplicatedKeyError,
       (⟨[⟨1, true, 0, [some 10]⟩], [⟨some 10, some 1, true, 0, 1, 7⟩], [], 0, 20⟩ : DBState)) :=
  ⟨((claim_C2 (⟨[⟨1, true, 0, []⟩], [], [], 0, 20⟩ : DBState)
      (⟨some 10, none, true, 0, 1, 7⟩ : ClinicalRecord)
      (⟨some 1, true, 0, []⟩ : PatientRecord) 10 1 ⟨1, true, 0, []⟩
      rfl rfl rfl).1 rfl).1,
   (claim_C2
      (⟨[⟨1, true, 0, [some 10]⟩], [⟨some 10, some 1, true, 0, 1, 7⟩], [], 0, 20⟩ : DBState)
      (⟨some 10, none, true, 0, 1, 7⟩ : ClinicalRecord)
      (⟨some 1, true, 0, []⟩ : PatientRecord) 10 1 ⟨1, true, 0, [some 10]⟩
      rfl rfl rfl).2 rfl⟩

/-- C4: remove_ehr_record fails with the not-linked error when the detail's
id is absent from the subject's stored links; when it is linked it unlinks
the detail by id match from the stored refs (first occurrence erased) and
from the in-memory list (first matching instance popped), hard-deletes the
stored document including its revision purge, and then resets the in-memory
detail: full identity reset (id and subject back-reference cleared) when
new_record_id is true, else a version-only reset that preserves the
detail's identity. -/
theorem claim_C4 (s : DBState) (r : ClinicalRecord) (p : PatientRecord)
    (i n : Nat) (pdoc : PatientDoc) (ys : List ClinicalRecord) (b : Bool)
    (hrid : r.record_id = some i) (hpid : p.record_id = some n)
    (hp : patient_lookup s (some n) = some pdoc) :
    (some i ∉ pdoc.ehr_refs →
       remove_ehr_record s r p b = (.error .notLinkedError, s)) ∧
    (some i ∈ pdoc.ehr_refs →
     pop_by_id p.ehr_records (some i) = some ys →
      (remove_ehr_record s r p b).1 =
        .ok ((if b then r.reset else r.reset_version),
             { p with last_update := s.clock + 1, ehr_records := ys }) ∧
      patient_lookup (remove_ehr_record s r p b).2 (some n) =
        some { pdoc with ehr_refs := pdoc.ehr_refs.erase (some i),
                         last_update := s.clock + 1 } ∧
      ehr_lookup (remove_ehr_record s r p b).2 (some i) = none ∧
      (∀ d ∈ (remove_ehr_record s r p b).2.revisions, d.record_id ≠ some i) ∧
      (b = true → r.reset.record_id = none ∧ r.reset.patient_id = none) ∧
      (b = false → r.reset_version.record_id = r.record_id)) := by
  constructor
  · intro habs
    have hdr := driver_remove_from_list_notlinked s n (some i) pdoc hp habs
    simp [remove_ehr_record, hpid, hrid, hdr]
  · intro he hpop
    have hok := remove_ehr_record_ok s r p i n pdoc ys b hrid hpid hp he hpop
    refine ⟨by rw [hok], ?_, ?_, ?_, ?_, ?_⟩
    · rw [hok]
      simp only [patient_lookup]
      have hp' : s.patients.find? (fun d => d.record_id == n) = some pdoc := by
        simpa [patient_lookup] using hp
      rw [find?_patient_update s.patients n
        (fun d' => { d' with ehr_refs := d'.ehr_refs.erase (some i),
                             last_update := s.clock + 1 })
        (fun d => rfl), hp']
      rfl
    · rw [hok]
      simp only [ehr_lookup]
      rw [List.find?_eq_none]
      intro x hx
      have hxp := (List.mem_filter.1 hx).2
      simp only [bne_iff_ne, ne_eq] at hxp
      simp [hxp]
    · intro d hd
      rw [hok] at hd
      have hdp := (List.mem_filter.1 hd).2
      simpa using hdp
    · intro _
      exact ⟨rfl, rfl⟩
    · intro _
      simp [ClinicalRecord.reset_version]

/-- Witness for C4: detaching the only linked detail 10 from subject 1 with
a full reset clears its identity and purges store and revisions; asking to
remove an unlinked id 99 fails with the not-linked error and leaves the
state untouched. -/
theorem claim_C4_witness :
    ((remove_ehr_record
        (⟨[⟨1, true, 0, [some 10]⟩], [⟨some 10, some 1, true, 0, 1, 7⟩],
          [⟨some 10, some 1, true, 0, 1, 7⟩], 0, 20⟩ : DBState)
        (⟨some 10, some 1, true, 0, 1, 7⟩ : ClinicalRecord)
        (⟨some 1, true, 0, [⟨some 10, some 1, true, 0, 1, 7⟩]⟩ : PatientRecord)
        true).1 =
      .ok ((⟨some 10, some 1, true, 0, 1, 7⟩ : ClinicalRecord).reset,
           { (⟨some 1, true, 0, [⟨some 10, some 1, true, 0, 1, 7⟩]⟩ : PatientRecord) with
             last_update := 1, ehr_records := [] })) ∧
    remove_ehr_record
        (⟨[⟨1, true, 0, [some 10]⟩], [⟨some 10, some 1, true, 0, 1, 7⟩],
          [⟨some 10, some 1, true, 0, 1, 7⟩], 0, 20⟩ : DBState)
        (⟨some 99, some 1, true, 0, 1, 8⟩ : ClinicalRecord)
        (⟨some 1, true, 0, [⟨some 10, some 1, true, 0, 1, 7⟩]⟩ : PatientRecord)
        true =
      (.error .notLinkedError,
       (⟨[⟨1, true, 0, [some 10]⟩], [⟨some 10, some 1, true, 0, 1, 7⟩],
         [⟨some 10, some 1, true, 0, 1, 7⟩], 0, 20⟩ : DBState)) := by
  have h1 := claim_C4
    (⟨[⟨1, true, 0, [some 10]⟩], [⟨some 10, some 1, true, 0, 1, 7⟩],
      [⟨some 10, some 1, true, 0, 1, 7⟩], 0, 20⟩ : DBState)
    (⟨some 10, some 1, true, 0, 1, 7⟩ : ClinicalRecord)
    (⟨some 1, true, 0, [⟨some 10, some 1, true, 0, 1, 7⟩]⟩ : PatientRecord)
    10 1 ⟨1, true, 0, [some 10]⟩ [] true rfl rfl rfl
  have h2 := claim_C4
    (⟨[⟨1, true, 0, [some 10]⟩], [⟨some 10, some 1, true, 0, 1, 7⟩],
      [⟨some 10, some 1, true, 0, 1, 7⟩], 0, 20⟩ : DBState)
    (⟨some 99, some 1, true, 0, 1, 8⟩ : ClinicalRecord)
    (⟨some 1, true, 0, [⟨some 10, some 1, true, 0, 1, 7⟩]⟩ : PatientRecord)
    99 1 ⟨1, true, 0, [some 10]⟩ [] true rfl rfl rfl
  exact ⟨(h1.2 (by simp) rfl).1, h2.1 (by simp)⟩

/-- C5: move_ehr_record detaches the detail from the source subject with
new_record_id false and then saves it into the destination: afterwards the
detail keeps its id (identity and revision lineage preserved rather than
reset to a fresh identity), it is absent from the source subject's stored
refs and in-memory list, present at the end of the destination's stored
refs and in-memory list, and persisted in the store under the same id,
bound to the destination. -/
theorem claim_C5 (s : DBState) (r : ClinicalRecord) (src dest : PatientRecord)
    (i ns nd : Nat) (sdoc ddoc : PatientDoc) (ys : List ClinicalRecord)
    (hrid : r.record_id = some i)
    (hsrc : src.record_id = some ns) (hdst : dest.record_id = some nd)
    (hne : ¬ ns = nd)
    (hpsrc : patient_lookup s (some ns) = some sdoc)
    (hpdst : patient_lookup s (some nd) = some ddoc)
    (hmem : some i ∈ sdoc.ehr_refs)
    (hcount : sdoc.ehr_refs.count (some i) = 1)
    (hpop : pop_by_id src.ehr_records (some i) = some ys)
    (hone : (src.ehr_records.filter (fun x => x.record_id == some i)).length = 1) :
    (move_ehr_record s src dest r).1 =
      .ok ({ src with last_update := s.clock + 1, ehr_records := ys },
           { dest with last_update := s.clock + 2,
                       ehr_records := dest.ehr_records
                         ++ [bind_to_patient r.reset_version dest] }) ∧
    (bind_to_patient r.reset_version dest).record_id = r.record_id ∧
    (bind_to_patient r.reset_version dest).patient_id = some nd ∧
    (∀ y ∈ ys, y.record_id ≠ some i) ∧
    patient_lookup (move_ehr_record s src dest r).2 (some ns) =
      some { sdoc with ehr_refs := sdoc.ehr_refs.erase (some i),
                       last_update := s.clock + 1 } ∧
    some i ∉ sdoc.ehr_refs.erase (some i) ∧
    patient_lookup (move_ehr_record s src dest r).2 (some nd) =
      some { ddoc with ehr_refs := ddoc.ehr_refs ++ [some i],
                       last_update := s.clock + 2 } ∧
    ehr_lookup (move_ehr_record s src dest r).2 (some i) =
      some (bind_to_patient r.reset_version dest) := by
  have hrem := remove_ehr_record_ok s r src i ns sdoc ys false hrid hsrc
    hpsrc hmem hpop
  have hr1id : (r.reset_version).record_id = some i := by
    simp [ClinicalRecord.reset_version, hrid]
  have hex1 : ehr_exists
      ({ s with
         clock := s.clock + 1,
         patients := s.patients.map (fun d' =>
           if d'.record_id == ns then
             { d' with ehr_refs := d'.ehr_refs.erase (some i),
                       last_update := s.clock + 1 }
           else d'),
         ehrs := s.ehrs.filter (fun d => d.record_id != some i),
         revisions := s.revisions.filter (fun d => d.record_id != some i) } : DBState)
      i = false := by
    simp only [ehr_exists]
    rw [List.any_eq_false]
    intro x hx
    have hx' : x ∈ s.ehrs.filter (fun d => d.record_id != some i) := hx
    have := (List.mem_filter.1 hx').2
    simpa using this
  have hsave := save_ehr_record_ok
    ({ s with
       clock := s.clock + 1,
       patients := s.patients.map (fun d' =>
         if d'.record_id == ns then
           { d' with ehr_refs := d'.ehr_refs.erase (some i),
                     last_update := s.clock + 1 }
         else d'),
       ehrs := s.ehrs.filter (fun d => d.record_id != some i),
       revisions := s.revisions.filter (fun d => d.record_id != some i) } : DBState)
    r.reset_version dest i nd hr1id hdst hex1
  have hmove : move_ehr_record s src dest r =
      (.ok ({ src with last_update := s.clock + 1, ehr_records := ys },
            { dest with last_update := s.clock + 2,
                        ehr_records := dest.ehr_records
                          ++ [bind_to_patient r.reset_version dest] }),
       { s with
         clock := s.clock + 2,
         patients := (s.patients.map (fun d' =>
             if d'.record_id == ns then
               { d' with ehr_refs := d'.ehr_refs.erase (some i),
                         last_update := s.clock + 1 }
             else d')).map (fun d =>
           if d.record_id == nd then
             { d with ehr_refs := d.ehr_refs ++ [some i],
                      last_update := s.clock + 2 }
           else d),
         ehrs := s.ehrs.filter (fun d => d.record_id != some i)
           ++ [bind_to_patient r.reset_version dest],
         revisions := s.revisions.filter (fun d => d.record_id != some i) }) := by
    simp only [move_ehr_record, hrem]
    simp only [Bool.false_eq_true, if_false]
    rw [hsave]
  have hfind_src : s.patients.find? (fun d => d.record_id == ns) = some sdoc := by
    simpa [patient_lookup] using hpsrc
  have hfind_dst : s.patients.find? (fun d => d.record_id == nd) = some ddoc := by
    simpa [patient_lookup] using hpdst
  refine ⟨by rw [hmove], ?_, ?_, ?_, ?_, ?_, ?_, ?_⟩
  · simp [bind_to_patient, ClinicalRecord.reset_version, hrid]
  · simp [bind_to_patient, ClinicalRecord.reset_version, hdst]
  · intro y hy hyid
    have h0 : (ys.filter (fun x => x.record_id == some i)).length = 0 := by
      rw [pop_by_id_filter_length (some i) src.ehr_records ys hpop, hone]
    have hmemf : y ∈ ys.filter (fun x => x.record_id == some i) :=
      List.mem_filter.2 ⟨hy, by simp [hyid]⟩
    rw [List.length_eq_zero.1 h0] at hmemf
    simp at hmemf
  · rw [hmove]
    simp only [patient_lookup]
    rw [find?_patient_update_other
        (s.patients.map (fun d' =>
          if d'.record_id == ns then
            { d' with ehr_refs := d'.ehr_refs.erase (some i),
                      last_update := s.clock + 1 }
          else d')) nd ns hne
        (fun d => { d with ehr_refs := d.ehr_refs ++ [some i],
                           last_update := s.clock + 2 })
        (fun d => rfl),
      find?_patient_update s.patients ns
        (fun d' => { d' with ehr_refs := d'.ehr_refs.erase (some i),
                             last_update := s.clock + 1 })
        (fun d => rfl), hfind_src]
    rfl
  · exact List.count_eq_zero.1 (by rw [List.count_erase_self, hcount])
  · rw [hmove]
    simp only [patient_lookup]
    rw [find?_patient_update
        (s.patients.map (fun d' =>
          if d'.record_id == ns then
            { d' with ehr_refs := d'.ehr_refs.erase (some i),
                      last_update := s.clock + 1 }
          else d')) nd
        (fun d => { d with ehr_refs := d.ehr_refs ++ [some i],
                           last_update := s.clock + 2 })
        (fun d => rfl),
      find?_patient_update_other s.patients ns nd (fun h => hne h.symm)
        (fun d' => { d' with ehr_refs := d'.ehr_refs.erase (some i),
                             last_update := s.clock + 1 })
        (fun d => rfl), hfind_dst]
    rfl
  · rw [hmove]
    simp only [ehr_lookup]
    rw [List.find?_append]
    have hleft : (s.ehrs.filter (fun d => d.record_id != some i)).find?
        (fun d => d.record_id == some i) = none := by
      rw [List.find?_eq_none]
      intro x hx
      have := (List.mem_filter.1 hx).2
      simp only [bne_iff_ne, ne_eq] at this
      simp [this]
    rw [hleft]
    simp [bind_to_patient, ClinicalRecord.reset_version, hrid]

/-- Witness for C5: moving detail 12 from subject 1 to subject 2 keeps id
12, empties the source's list and persists the detail under id 12 bound to
subject 2. -/
theorem claim_C5_witness :
    (move_ehr_record
        (⟨[⟨1, true, 0, [some 12]⟩, ⟨2, true, 0, []⟩],
          [⟨some 12, some 1, true, 0, 1, 102⟩], [], 5, 50⟩ : DBState)
        (⟨some 1, true, 0, [⟨some 12, some 1, true, 0, 1, 102⟩]⟩ : PatientRecord)
        (⟨some 2, true, 0, []⟩ : PatientRecord)
        (⟨some 12, some 1, true, 0, 1, 102⟩ : ClinicalRecord)).1 =
      .ok ({ (⟨some 1, true, 0, [⟨some 12, some 1, true, 0, 1, 102⟩]⟩ : PatientRecord) with
             last_update := 6, ehr_records := [] },
           { (⟨some 2, true, 0, []⟩ : PatientRecord) with
             last_update := 7,
             ehr_records := [bind_to_patient
               (⟨some 12, some 1, true, 0, 1, 102⟩ : ClinicalRecord).reset_version
               (⟨some 2, true, 0, []⟩ : PatientRecord)] }) ∧
    ehr_lookup
        (move_ehr_record
          (⟨[⟨1, true, 0, [some 12]⟩, ⟨2, true, 0, []⟩],
            [⟨some 12, some 1, true, 0, 1, 102⟩], [], 5, 50⟩ : DBState)
          (⟨some 1, true, 0, [⟨some 12, some 1, true, 0, 1, 102⟩]⟩ : PatientRecord)
          (⟨some 2, true, 0, []⟩ : PatientRecord)
          (⟨some 12, some 1, true, 0, 1, 102⟩ : ClinicalRecord)).2 (some 12) =
      some (bind_to_patient
        (⟨some 12, some 1, true, 0, 1, 102⟩ : ClinicalRecord).reset_version
        (⟨some 2, true, 0, []⟩ : PatientRecord)) := by
  have h := claim_C5
    (⟨[⟨1, true, 0, [some 12]⟩, ⟨2, true, 0, []⟩],
      [⟨some 12, some 1, true, 0, 1, 102⟩], [], 5, 50⟩ : DBState)
    (⟨some 12, some 1, true, 0, 1, 102⟩ : ClinicalRecord)
    (⟨some 1, true, 0, [⟨some 12, some 1, true, 0, 1, 102⟩]⟩ : PatientRecord)
    (⟨some 2, true, 0, []⟩ : PatientRecord)
    12 1 2 ⟨1, true, 0, [some 12]⟩ ⟨2, true, 0, []⟩ []
    rfl rfl rfl (by decide) rfl rfl (by simp) (by simp) rfl (by simp)
  exact ⟨h.1, h.2.2.2.2.2.2.2⟩

/-- C7: get_patient hydrates each stored detail ref into the returned
record's ehr_records exactly when fetch_hidden_ehr is true or the stored
detail is active; a dropped ref only disappears from the returned in-memory
list — get_patient performs no store write in the source, and accordingly
the embedding returns no state, so the stored ehr_refs linkage of the
patient document is untouched; with fetch_hidden_ehr the hydrated list
covers every ref. -/
theorem claim_C7 (s : DBState) (n : Nat) (pdoc : PatientDoc) (f : Bool)
    (hp : patient_lookup s (some n) = some pdoc)
    (hres : ∀ ref ∈ pdoc.ehr_refs, ∃ d, ehr_lookup s ref = some d) :
    (∀ hflag : Bool, get_patient s (some n) f hflag =
      .ok (some { record_id := some pdoc.record_id, active := pdoc.active,
                  last_update := pdoc.last_update,
                  ehr_records := pdoc.ehr_refs.filterMap
                    (fun ref => hydrate_step s hflag ref) })) ∧
    (∀ (hflag : Bool) (ref : Option Nat) (d : ClinicalRecord),
        ehr_lookup s ref = some d →
        hydrate_step s hflag ref = if hflag || d.active then some d else none) ∧
    (∀ p', get_patient s (some n) f true = .ok (some p') →
        p'.ehr_records.length = pdoc.ehr_refs.length) ∧
    (∀ (hflag : Bool) (p'), get_patient s (some n) f hflag = .ok (some p') →
        (∀ ref ∈ pdoc.ehr_refs, ∀ d, ehr_lookup s ref = some d →
           (hflag || d.active) = true → d ∈ p'.ehr_records) ∧
        (∀ d ∈ p'.ehr_records, ∃ ref ∈ pdoc.ehr_refs,
           ehr_lookup s ref = some d ∧ (hflag || d.active) = true)) := by
  have hA : ∀ hflag : Bool, get_patient s (some n) f hflag =
      .ok (some { record_id := some pdoc.record_id, active := pdoc.active,
                  last_update := pdoc.last_update,
                  ehr_records := pdoc.ehr_refs.filterMap
                    (fun ref => hydrate_step s hflag ref) }) :=
    fun hflag => get_patient_some s n pdoc f hflag hp hres
  refine ⟨hA, ?_, ?_, ?_⟩
  · intro hflag ref d hd
    simp [hydrate_step, hd]
  · intro p' hp'
    rw [hA true] at hp'
    injection hp' with h1
    injection h1 with h2
    subst h2
    show (pdoc.ehr_refs.filterMap (fun ref => hydrate_step s true ref)).length
      = pdoc.ehr_refs.length
    rw [filterMap_hydrate_true s pdoc.ehr_refs hres]
    exact filterMap_lookup_length s pdoc.ehr_refs hres
  · intro hflag p' hp'
    rw [hA hflag] at hp'
    injection hp' with h1
    injection h1 with h2
    subst h2
    constructor
    · intro ref href d hd hkeep
      show d ∈ pdoc.ehr_refs.filterMap (fun ref => hydrate_step s hflag ref)
      refine List.mem_filterMap.2 ⟨ref, href, ?_⟩
      simp [hydrate_step, hd, hkeep]
    · intro d hd
      replace hd : d ∈ pdoc.ehr_refs.filterMap
        (fun ref => hydrate_step s hflag ref) := hd
      obtain ⟨ref, href, hstep⟩ := List.mem_filterMap.1 hd
      cases hl : ehr_lookup s ref with
      | none => simp [hydrate_step, hl] at hstep
      | some d0 =>
          simp only [hydrate_step, hl] at hstep
          by_cases hk : (hflag || d0.active) = true
          · rw [if_pos hk] at hstep
            obtain rfl : d0 = d := by simpa using hstep
            exact ⟨ref, href, hl, hk⟩
          · rw [if_neg hk] at hstep
            simp at hstep

/-- Witness for C7, the specified scenario: subject 1 links three details
with one hidden; hydration yields two records without hidden details, three
with them, and the stored refs count three throughout. -/
theorem claim_C7_witness :
    (∃ p2, get_patient
        (⟨[⟨1, true, 0, [some 10, some 11, some 12]⟩],
          [⟨some 10, some 1, true, 0, 1, 100⟩, ⟨some 11, some 1, false, 0, 1, 101⟩,
           ⟨some 12, some 1, true, 0, 1, 102⟩], [], 5, 50⟩ : DBState)
        (some 1) true false = .ok (some p2) ∧ p2.ehr_records.length = 2) ∧
    (∃ p3, get_patient
        (⟨[⟨1, true, 0, [some 10, some 11, some 12]⟩],
          [⟨some 10, some 1, true, 0, 1, 100⟩, ⟨some 11, some 1, false, 0, 1, 101⟩,
           ⟨some 12, some 1, true, 0, 1, 102⟩], [], 5, 50⟩ : DBState)
        (some 1) true true = .ok (some p3) ∧ p3.ehr_records.length = 3) ∧
    (⟨1, true, 0, [some 10, some 11, some 12]⟩ : PatientDoc).ehr_refs.length = 3 := by
  have h := claim_C7
    (⟨[⟨1, true, 0, [some 10, some 11, some 12]⟩],
      [⟨some 10, some 1, true, 0, 1, 100⟩, ⟨some 11, some 1, false, 0, 1, 101⟩,
       ⟨some 12, some 1, true, 0, 1, 102⟩], [], 5, 50⟩ : DBState)
    1 ⟨1, true, 0, [some 10, some 11, some 12]⟩ true rfl
    (by
      intro ref href
      simp only [List.mem_cons, List.mem_singleton] at href
      rcases href with rfl | rfl | rfl | hfalse
      · exact ⟨_, rfl⟩
      · exact ⟨_, rfl⟩
      · exact ⟨_, rfl⟩
      · simp at hfalse)
  exact ⟨⟨_, h.1 false, rfl⟩, ⟨_, h.1 true, rfl⟩, rfl⟩

/-- C3: save_ehr_records with skip_existing_duplicated true returns as
saved exactly the input records whose ids the driver reported as saved
(those fresh for the initial store), returns the duplicate-key conflicting
records decoded in a separate collection instead of raising, and updates
the subject's stored refs and in-memory list with exactly the saved
records' ids and instances — never with a duplicate's. -/
theorem claim_C3 (s : DBState) (rs : List ClinicalRecord) (p : PatientRecord)
    (n : Nat) (pdoc : PatientDoc)
    (hpid : p.record_id = some n)
    (hp : patient_lookup s (some n) = some pdoc)
    (hids : ∀ r ∈ rs, r.record_id ≠ none)
    (hnodup : (rs.map (fun r => r.record_id)).Nodup) :
    (save_ehr_records s rs p true).1 =
      .ok ((rs.map (fun r => bind_to_patient r p)).filter (fun r => fresh_for s r),
           { p with last_update := s.clock + 1,
                    ehr_records := p.ehr_records
                      ++ (rs.map (fun r => bind_to_patient r p)).filter
                           (fun r => fresh_for s r) },
           (rs.map (fun r => bind_to_patient r p)).filter
             (fun r => !(fresh_for s r))) ∧
    patient_lookup (save_ehr_records s rs p true).2 (some n) =
      some { pdoc with
             ehr_refs := pdoc.ehr_refs
               ++ ((rs.map (fun r => bind_to_patient r p)).filter
                    (fun r => fresh_for s r)).map (fun r => r.record_id),
             last_update := s.clock + 1 } ∧
    (∀ r ∈ (rs.map (fun r => bind_to_patient r p)).filter
        (fun r => !(fresh_for s r)),
       ∀ m, r.record_id = some m → ehr_exists s m = true) := by
  have hidsB : ∀ r ∈ rs.map (fun r => bind_to_patient r p),
      r.record_id ≠ none := by
    intro r hr
    obtain ⟨r0, hr0, rfl⟩ := List.mem_map.1 hr
    simpa [bind_to_patient] using hids r0 hr0
  have hmapid : (rs.map (fun r => bind_to_patient r p)).map (fun r => r.record_id)
      = rs.map (fun r => r.record_id) := by
    simp [bind_to_patient]
  have hnodupB : ((rs.map (fun r => bind_to_patient r p)).map
      (fun r => r.record_id)).Nodup := by
    rw [hmapid]
    exact hnodup
  have hdr := driver_add_ehrs_skip (rs.map (fun r => bind_to_patient r p))
    s hidsB hnodupB
  have hfeq : (rs.map (fun r => bind_to_patient r p)).filter
      (fun r => match r.record_id with
        | some m => (((rs.map (fun r => bind_to_patient r p)).filter
            (fun x => fresh_for s x)).filterMap (fun x => x.record_id)).contains m
        | none => false)
      = (rs.map (fun r => bind_to_patient r p)).filter (fun r => fresh_for s r) := by
    apply List.filter_congr
    intro r hr
    cases hrm : r.record_id with
    | none => exact absurd hrm (hidsB r hr)
    | some m =>
        have := saved_contains_eq_fresh (rs.map (fun r => bind_to_patient r p))
          s hnodupB r hr m hrm
        exact this
  have hview : save_ehr_records s rs p true =
      (.ok ((rs.map (fun r => bind_to_patient r p)).filter (fun r => fresh_for s r),
            { p with last_update := s.clock + 1,
                     ehr_records := p.ehr_records
                       ++ (rs.map (fun r => bind_to_patient r p)).filter
                            (fun r => fresh_for s r) },
            (rs.map (fun r => bind_to_patient r p)).filter
              (fun r => !(fresh_for s r))),
       { s with
         ehrs := s.ehrs ++ (rs.map (fun r => bind_to_patient r p)).filter
           (fun r => fresh_for s r),
         clock := s.clock + 1,
         patients := s.patients.map (fun d =>
           if d.record_id == n then
             { d with
               ehr_refs := d.ehr_refs
                 ++ ((rs.map (fun r => bind_to_patient r p)).filter
                      (fun r => fresh_for s r)).map (fun r => r.record_id),
               last_update := s.clock + 1 }
           else d) }) := by
    simp only [save_ehr_records, hdr, hfeq]
    simp [driver_patient_extend_list, hpid]
  refine ⟨by rw [hview], ?_, ?_⟩
  · rw [hview]
    simp only [patient_lookup]
    have hp' : s.patients.find? (fun d => d.record_id == n) = some pdoc := by
      simpa [patient_lookup] using hp
    rw [find?_patient_update s.patients n
        (fun d => { d with
          ehr_refs := d.ehr_refs
            ++ ((rs.map (fun r => bind_to_patient r p)).filter
                 (fun r => fresh_for s r)).map (fun r => r.record_id),
          last_update := s.clock + 1 })
        (fun d => rfl), hp']
    rfl
  · intro r hr m hm
    have hpred := (List.mem_filter.1 hr).2
    simp only [Bool.not_eq_true', fresh_for, hm] at hpred
    simpa using hpred

/-- Witness for C3: batch-saving a fresh detail 13 and a colliding detail
10 with skip on returns saved [13], duplicates [10], and links only 13 into
the stored refs. -/
theorem claim_C3_witness :
    (save_ehr_records
        (⟨[⟨1, true, 0, [some 10]⟩], [⟨some 10, some 1, true, 0, 1, 7⟩], [], 0, 20⟩ : DBState)
        [⟨some 13, none, true, 0, 1, 103⟩, ⟨some 10, none, true, 0, 1, 104⟩]
        (⟨some 1, true, 0, []⟩ : PatientRecord) true).1 =
      .ok ([⟨some 13, some 1, true, 0, 1, 103⟩],
           { (⟨some 1, true, 0, []⟩ : PatientRecord) with
             last_update := 1,
             ehr_records := [⟨some 13, some 1, true, 0, 1, 103⟩] },
           [⟨some 10, some 1, true, 0, 1, 104⟩]) ∧
    patient_lookup
        (save_ehr_records
          (⟨[⟨1, true, 0, [some 10]⟩], [⟨some 10, some 1, true, 0, 1, 7⟩], [], 0, 20⟩ : DBState)
          [⟨some 13, none, true, 0, 1, 103⟩, ⟨some 10, none, true, 0, 1, 104⟩]
          (⟨some 1, true, 0, []⟩ : PatientRecord) true).2 (some 1) =
      some ⟨1, true, 1, [some 10, some 13]⟩ := by
  have h := claim_C3
    (⟨[⟨1, true, 0, [some 10]⟩], [⟨some 10, some 1, true, 0, 1, 7⟩], [], 0, 20⟩ : DBState)
    [⟨some 13, none, true, 0, 1, 103⟩, ⟨some 10, none, true, 0, 1, 104⟩]
    (⟨some 1, true, 0, []⟩ : PatientRecord) 1 ⟨1, true, 0, [some 10]⟩
    rfl rfl (by decide) (by decide)
  exact ⟨h.1, h.2.1⟩

/-- C9 (amended): whenever cleanup_json returns without raising, the result
at every nesting depth holds no None value, no empty dictionary and no
empty list — keys whose cleaned value is None (in particular a cleaned
empty collection) are omitted, and a dictionary that becomes empty after
cleaning is returned as None rather than as an empty dictionary.  As
stated over every input dictionary the claim fails, because the source
recurses with cleanup_json into every non-None list item and raises
AttributeError on a non-dictionary item; see the counterexample. -/
theorem claim_C9 :
    (∀ v r, cleanup_json v = .ok r → r.isNull = true ∨ no_junk r = true) ∧
    (∀ fields, cleanup_fields fields = .ok [] →
        cleanup_json (.obj fields) = .ok .null) := by
  refine ⟨cleanup_ok_clean, ?_⟩
  intro fields hf
  simp [cleanup_json, hf]

/-- Counterexample for C9 as stated: on the JSON dictionary mapping key a
to the list holding the plain string x, cleanup_json raises (the inner
cleanup_json call receives the string and calls iteritems on it), returning
no cleaned dictionary at all. -/
theorem claim_C9_counterexample :
    cleanup_json (JValue.obj [("a", JValue.arr [JValue.str "x"])])
      = .error () := by
  simp [cleanup_json, cleanup_fields, cleanup_value, cleanup_items,
    JValue.isNull]

/-- Witness for C9: a dictionary with a None value, a kept number and an
empty nested dictionary cleans to a junk-free dictionary. -/
theorem claim_C9_witness :
    (JValue.obj [("b", JValue.num 1)]).isNull = true ∨
      no_junk (JValue.obj [("b", JValue.num 1)]) = true :=
  claim_C9.1
    (JValue.obj [("a", JValue.null), ("b", JValue.num 1), ("c", JValue.obj [])])
    (JValue.obj [("b", JValue.num 1)])
    (by simp [cleanup_json, cleanup_fields, cleanup_value, JValue.isNull])

/-- C10: decode_list returns a new list of exactly the input's length with
elements in order, where unicode elements are replaced by their utf-8
encoded byte strings, nested sequences and mappings are recursively decoded
and every other element is unchanged; decode_dict covers every key of the
input (the key decoded) and each of its entries is a decoded input pair. -/
theorem claim_C10 (xs : List PyVal) (data : List (PyKey × PyVal)) :
    (decode_list xs).length = xs.length ∧
    decode_list xs = xs.map decode_item ∧
    (∀ s, decode_item (.uni s) = .bytes s) ∧
    (∀ ys, decode_item (.list ys) = .list (decode_list ys)) ∧
    (∀ kvs, decode_item (.dict kvs) = .dict (decode_dict kvs)) ∧
    (∀ s, decode_item (.bytes s) = .bytes s) ∧
    (∀ m, decode_item (.num m) = .num m) ∧
    (∀ b, decode_item (.boolean b) = .boolean b) ∧
    decode_item .none = .none ∧
    (∀ kv ∈ data, decode_key kv.1 ∈ (decode_dict data).map Prod.fst) ∧
    (∀ q ∈ decode_dict data, ∃ kv ∈ data,
        q = (decode_key kv.1, decode_item kv.2)) := by
  have hdl : ∀ ys : List PyVal, decode_item (.list ys) = .list (decode_list ys) := by
    intro ys
    simp [decode_item]
  have hdd : ∀ kvs, decode_item (.dict kvs) = .dict (decode_dict kvs) := by
    intro kvs
    simp [decode_item, decode_dict]
  refine ⟨?_, decode_list_eq_map xs, fun s => by simp [decode_item], hdl, hdd,
    fun s => by simp [decode_item], fun m => by simp [decode_item],
    fun b => by simp [decode_item], by simp [decode_item], ?_, ?_⟩
  · rw [decode_list_eq_map]
    simp
  · intro kv hkv
    have hmem : (decode_key kv.1, decode_item kv.2) ∈ decode_pairs data := by
      rw [decode_pairs_eq_map]
      exact List.mem_map.2 ⟨kv, hkv, rfl⟩
    have := (dict_assign_all_covers (decode_pairs data) []).2
      (decode_key kv.1, decode_item kv.2) hmem
    simpa [decode_dict] using this
  · intro q hq
    replace hq : q ∈ dict_assign_all [] (decode_pairs data) := hq
    rcases mem_dict_assign_all (decode_pairs data) [] q hq with h | h
    · simp at h
    · rw [decode_pairs_eq_map] at h
      obtain ⟨kv, hkv, hq'⟩ := List.mem_map.1 h
      exact ⟨kv, hkv, hq'.symm⟩

/-- Witness for C10: decoding a two-element list keeps length two, and the
decoded dictionary of the single unicode key a holds the byte-string key
a. -/
theorem claim_C10_witness :
    (decode_list [PyVal.uni "x", PyVal.num 2]).length = 2 ∧
    PyKey.bk "a" ∈
      (decode_dict [(PyKey.uk "a", PyVal.uni "v")]).map Prod.fst :=
  ⟨(claim_C10 [PyVal.uni "x", PyVal.num 2]
      [(PyKey.uk "a", PyVal.uni "v")]).1,
   (claim_C10 [PyVal.uni "x", PyVal.num 2]
      [(PyKey.uk "a", PyVal.uni "v")]).2.2.2.2.2.2.2.2.2.1
     (PyKey.uk "a", PyVal.uni "v") (by simp)⟩

/-- C1: delete_patient with cascade false, on a subject whose stored record
still links at least one detail (active or hidden), raises the
cascade-delete error naming the subject id and the authoritative reloaded
link count — the count of the stored refs, independent of the caller's
in-memory copy p.ehr_records — and performs no deletion: the post-state is
exactly the pre-state, so the subject document and every linked detail are
still retrievable afterward. -/
theorem claim_C1 (s : DBState) (p : PatientRecord) (n : Nat) (pdoc : PatientDoc)
    (hid : p.record_id = some n)
    (hp : patient_lookup s (some n) = some pdoc)
    (hlinked : 0 < pdoc.ehr_refs.length)
    (hres : ∀ ref ∈ pdoc.ehr_refs, ∃ d, ehr_lookup s ref = some d) :
    delete_patient s p false =
      (.error (.cascadeDeleteError (some pdoc.record_id) pdoc.ehr_refs.length), s) ∧
    patient_lookup (delete_patient s p false).2 (some n) = some pdoc ∧
    (∀ ref ∈ pdoc.ehr_refs,
       ehr_lookup (delete_patient s p false).2 ref = ehr_lookup s ref) := by
  have hget := get_patient_some s n pdoc false true hp hres
  have hlen : (pdoc.ehr_refs.filterMap (fun ref => hydrate_step s true ref)).length
      = pdoc.ehr_refs.length := by
    rw [filterMap_hydrate_true s pdoc.ehr_refs hres]
    exact filterMap_lookup_length s pdoc.ehr_refs hres
  have hcond : (0 : Nat) <
      (pdoc.ehr_refs.filterMap (fun ref => hydrate_step s true ref)).length := by
    rw [hlen]
    exact hlinked
  have hne : pdoc.ehr_refs ≠ [] := List.ne_nil_of_length_pos hlinked
  have hmain : delete_patient s p false =
      (.error (.cascadeDeleteError (some pdoc.record_id) pdoc.ehr_refs.length), s) := by
    simp [delete_patient, hid, hget, hcond, hlen, hne]
  refine ⟨hmain, ?_, ?_⟩
  · rw [hmain]
    exact hp
  · intro ref _
    rw [hmain]

/-- Witness for C1: a stored subject with one hidden linked detail and an
empty in-memory copy; the error still reports the stored link count 1 and
the state is untouched. -/
theorem claim_C1_witness :
    delete_patient
        (⟨[⟨1, true, 0, [some 10]⟩], [⟨some 10, some 1, false, 0, 1, 7⟩], [], 0, 20⟩ : DBState)
        (⟨some 1, true, 0, []⟩ : PatientRecord) false =
      (.error (.cascadeDeleteError (some 1) 1),
       (⟨[⟨1, true, 0, [some 10]⟩], [⟨some 10, some 1, false, 0, 1, 7⟩], [], 0, 20⟩ : DBState)) :=
  (claim_C1
    (⟨[⟨1, true, 0, [some 10]⟩], [⟨some 10, some 1, false, 0, 1, 7⟩], [], 0, 20⟩ : DBState)
    (⟨some 1, true, 0, []⟩ : PatientRecord) 1 ⟨1, true, 0, [some 10]⟩ rfl rfl (by simp)
    (by
      intro ref href
      simp only [List.mem_singleton] at href
      subst href
      exact ⟨_, rfl⟩)).1

/-- C8: delete_patient with cascade true hard-deletes every linked detail
(purging each detail's revision history) and then the subject document
itself: afterwards the subject lookup and get_patient report not-found and
no previously linked detail remains in the store. -/
theorem claim_C8 (s : DBState) (p : PatientRecord) (n : Nat) (pdoc : PatientDoc)
    (hid : p.record_id = some n)
    (hp : patient_lookup s (some n) = some pdoc)
    (hres : ∀ ref ∈ pdoc.ehr_refs, ∃ d, ehr_lookup s ref = some d) :
    (delete_patient s p true).1 = .ok () ∧
    patient_lookup (delete_patient s p true).2 (some n) = none ∧
    get_patient (delete_patient s p true).2 (some n) true false = .ok none ∧
    (∀ ref ∈ pdoc.ehr_refs, ehr_lookup (delete_patient s p true).2 ref = none) ∧
    (∀ ref ∈ pdoc.ehr_refs, ∀ d ∈ (delete_patient s p true).2.revisions,
       d.record_id ≠ ref) := by
  have hget := get_patient_some s n pdoc false true hp hres
  have hn : pdoc.record_id = n := by
    have := patient_lookup_id s (some n) pdoc hp
    simpa using this
  have hrecs_ids :
      (pdoc.ehr_refs.filterMap (fun ref => hydrate_step s true ref)).map
        (fun r => r.record_id) = pdoc.ehr_refs := by
    rw [filterMap_hydrate_true s pdoc.ehr_refs hres]
    exact filterMap_lookup_ids s pdoc.ehr_refs hres
  have hmem_recs : ∀ ref ∈ pdoc.ehr_refs,
      ∃ rec ∈ pdoc.ehr_refs.filterMap (fun r => hydrate_step s true r),
        rec.record_id = ref := by
    intro ref href
    rw [← hrecs_ids] at href
    obtain ⟨rec, hrec, hr⟩ := List.mem_map.1 href
    exact ⟨rec, hrec, hr⟩
  have hview : delete_patient s p true =
      (.ok (),
       { delete_ehr_list s (pdoc.ehr_refs.filterMap (fun r => hydrate_step s true r)) with
         patients := (delete_ehr_list s
             (pdoc.ehr_refs.filterMap (fun r => hydrate_step s true r))).patients.filter
           (fun d => some d.record_id != some pdoc.record_id) }) := by
    simp [delete_patient, hid, hget]
  have hpatients : (delete_patient s p true).2.patients
      = s.patients.filter (fun d => some d.record_id != some pdoc.record_id) := by
    rw [hview]
    simp [delete_ehr_list_patients]
  have hplookup : patient_lookup (delete_patient s p true).2 (some n) = none := by
    simp only [patient_lookup, hpatients]
    rw [List.find?_eq_none]
    intro x hx
    have hxp := (List.mem_filter.1 hx).2
    simp only [bne_iff_ne, ne_eq, Option.some.injEq] at hxp
    simp only [beq_iff_eq]
    rw [← hn]
    exact hxp
  have hehrs : (delete_patient s p true).2.ehrs
      = s.ehrs.filter (fun d =>
          (pdoc.ehr_refs.filterMap (fun r => hydrate_step s true r)).all
            (fun r => d.record_id != r.record_id)) := by
    rw [hview]
    simp [delete_ehr_list_ehrs]
  have hrevs : (delete_patient s p true).2.revisions
      = s.revisions.filter (fun d =>
          (pdoc.ehr_refs.filterMap (fun r => hydrate_step s true r)).all
            (fun r => d.record_id != r.record_id)) := by
    rw [hview]
    simp [delete_ehr_list_revisions]
  refine ⟨by rw [hview], hplookup, ?_, ?_, ?_⟩
  · simp [get_patient, hplookup]
  · intro ref href
    obtain ⟨rec, hrec, hrid⟩ := hmem_recs ref href
    obtain ⟨dref, hdref⟩ := hres ref href
    cases hrefcase : ref with
    | none =>
        rw [hrefcase] at hdref
        simp [ehr_lookup] at hdref
    | some m =>
        simp only [ehr_lookup, hehrs]
        rw [List.find?_eq_none]
        intro x hx
        have hxp := (List.mem_filter.1 hx).2
        have hall := List.all_eq_true.1 hxp rec hrec
        rw [hrid, hrefcase] at hall
        simp only [bne_iff_ne, ne_eq] at hall
        simp [hall]
  · intro ref href d hd
    obtain ⟨rec, hrec, hrid⟩ := hmem_recs ref href
    rw [hrevs] at hd
    have hdp := (List.mem_filter.1 hd).2
    have hall := List.all_eq_true.1 hdp rec hrec
    rw [hrid] at hall
    simpa using hall

/-- Witness for C8: deleting a subject with one active and one hidden
linked detail under cascade empties their lookups and the revision store
entry. -/
theorem claim_C8_witness :
    (delete_patient
        (⟨[⟨1, true, 0, [some 10, some 11]⟩],
          [⟨some 10, some 1, true, 0, 1, 7⟩, ⟨some 11, some 1, false, 0, 2, 8⟩],
          [⟨some 10, some 1, true, 0, 1, 7⟩], 0, 20⟩ : DBState)
        (⟨some 1, true, 0, []⟩ : PatientRecord) true).1 = .ok () ∧
    patient_lookup
      (delete_patient
        (⟨[⟨1, true, 0, [some 10, some 11]⟩],
          [⟨some 10, some 1, true, 0, 1, 7⟩, ⟨some 11, some 1, false, 0, 2, 8⟩],
          [⟨some 10, some 1, true, 0, 1, 7⟩], 0, 20⟩ : DBState)
        (⟨some 1, true, 0, []⟩ : PatientRecord) true).2 (some 1) = none := by
  have h := claim_C8
    (⟨[⟨1, true, 0, [some 10, some 11]⟩],
      [⟨some 10, some 1, true, 0, 1, 7⟩, ⟨some 11, some 1, false, 0, 2, 8⟩],
      [⟨some 10, some 1, true, 0, 1, 7⟩], 0, 20⟩ : DBState)
    (⟨some 1, true, 0, []⟩ : PatientRecord) 1 ⟨1, true, 0, [some 10, some 11]⟩
    rfl rfl
    (by
      intro ref href
      simp only [List.mem_cons, List.mem_singleton] at href
      rcases href with rfl | rfl | h
      · exact ⟨_, rfl⟩
      · exact ⟨_, rfl⟩
      · simp at h)
  exact ⟨h.1, h.2.1⟩

/-- C6: hideSubject (hide_patient) is idempotent — calling it twice yields
the same final state (record and store) as calling it once; on an already
inactive subject it is a no-op returning the record unchanged without
error; on an active subject it hides every currently bound active detail
first and then the subject itself, setting active to false and bumping
last_update to a fresh timestamp; hideDetail (hide_ehr_record) is likewise
a no-op on an already inactive detail. -/
theorem claim_C6 (s : DBState) (p : PatientRecord) (r : ClinicalRecord) :
    hide_patient (hide_patient s p).2 (hide_patient s p).1 = hide_patient s p ∧
    (p.active = false → hide_patient s p = (p, s)) ∧
    (p.active = true →
      (hide_patient s p).1.active = false ∧
      s.clock < (hide_patient s p).1.last_update ∧
      ∀ r' ∈ (hide_patient s p).1.ehr_records, r'.active = false) ∧
    (r.active = false → hide_ehr_record s r = (r, s)) := by
  refine ⟨?_, ?_, ?_, ?_⟩
  · have h1 := hide_patient_fst_active s p
    rcases h : hide_patient s p with ⟨p1, s1⟩
    rw [h] at h1
    simp only [] at h1
    show hide_patient s1 p1 = (p1, s1)
    simp [hide_patient, h1]
  · intro hp
    simp [hide_patient, hp]
  · intro hp
    rcases h1 : hide_ehr_list s p.ehr_records with ⟨recs, s1⟩
    rcases h2 : driver_patient_update_active s1 p.record_id false with ⟨ts, s2⟩
    have hts : ts = s1.clock + 1 := by
      have := driver_patient_update_active_ts s1 p.record_id false
      rw [h2] at this
      exact this
    have hclock : s.clock ≤ s1.clock := by
      have := hide_ehr_list_clock p.ehr_records s
      rw [h1] at this
      exact this
    refine ⟨?_, ?_, ?_⟩
    · simp [hide_patient, hp, h1, h2]
    · simp only [hide_patient, hp, if_pos, h1, h2]
      rw [hts]
      omega
    · intro r' hr'
      simp only [hide_patient, hp, if_pos, h1, h2] at hr'
      have := hide_ehr_list_all_inactive p.ehr_records s r'
      rw [h1] at this
      exact this hr'
  · intro hr
    simp [hide_ehr_record, hr]

/-- Witness for C6: the no-op branches at an inactive subject and detail,
and the hiding branch at an active subject with one bound detail. -/
theorem claim_C6_witness :
    hide_patient (⟨[⟨1, true, 0, [some 10]⟩], [⟨some 10, some 1, true, 0, 1, 7⟩], [], 0, 20⟩ : DBState)
        (⟨some 1, false, 0, []⟩ : PatientRecord)
      = ((⟨some 1, false, 0, []⟩ : PatientRecord),
         (⟨[⟨1, true, 0, [some 10]⟩], [⟨some 10, some 1, true, 0, 1, 7⟩], [], 0, 20⟩ : DBState)) ∧
    hide_ehr_record (⟨[⟨1, true, 0, [some 10]⟩], [⟨some 10, some 1, true, 0, 1, 7⟩], [], 0, 20⟩ : DBState)
        (⟨some 10, some 1, false, 0, 1, 7⟩ : ClinicalRecord)
      = ((⟨some 10, some 1, false, 0, 1, 7⟩ : ClinicalRecord),
         (⟨[⟨1, true, 0, [some 10]⟩], [⟨some 10, some 1, true, 0, 1, 7⟩], [], 0, 20⟩ : DBState)) ∧
    ((hide_patient (⟨[⟨1, true, 0, [some 10]⟩], [⟨some 10, some 1, true, 0, 1, 7⟩], [], 0, 20⟩ : DBState)
        (⟨some 1, true, 0, [⟨some 10, some 1, true, 0, 1, 7⟩]⟩ : PatientRecord)).1.active = false ∧
     (0 : Nat) < (hide_patient (⟨[⟨1, true, 0, [some 10]⟩], [⟨some 10, some 1, true, 0, 1, 7⟩], [], 0, 20⟩ : DBState)
        (⟨some 1, true, 0, [⟨some 10, some 1, true, 0, 1, 7⟩]⟩ : PatientRecord)).1.last_update ∧
     ∀ r' ∈ (hide_patient (⟨[⟨1, true, 0, [some 10]⟩], [⟨some 10, some 1, true, 0, 1, 7⟩], [], 0, 20⟩ : DBState)
        (⟨some 1, true, 0, [⟨some 10, some 1, true, 0, 1, 7⟩]⟩ : PatientRecord)).1.ehr_records,
          r'.active = false) :=
  ⟨(claim_C6 _ (⟨some 1, false, 0, []⟩ : PatientRecord)
      (⟨some 10, some 1, false, 0, 1, 7⟩ : ClinicalRecord)).2.1 rfl,
   (claim_C6 _ (⟨some 1, false, 0, []⟩ : PatientRecord)
      (⟨some 10, some 1, false, 0, 1, 7⟩ : ClinicalRecord)).2.2.2 rfl,
   (claim_C6 _ (⟨some 1, true, 0, [⟨some 10, some 1, true, 0, 1, 7⟩]⟩ : PatientRecord)
      (⟨some 10, some 1, false, 0, 1, 7⟩ : ClinicalRecord)).2.2.1 rfl⟩

end PyEHR
